import Mathlib

/-!
Verification of the ts-frame tabular-data library (DataFrame core, column
checks, CSV codec).  Each TypeScript function of the repository is embedded
as an executable Lean definition; machine floats are modelled as exact
rationals (every JavaScript double is a dyadic, hence terminating, rational),
JavaScript `undefined` and `NaN` are explicit constructors, and functions that
`throw` return `Except`.
-/

namespace TsFrame

/-! ## JavaScript string primitives -/

/-- Whitespace set trimmed by JavaScript `String.prototype.trim`
(ECMAScript WhiteSpace ∪ LineTerminator). -/
def isJsWhitespace (c : Char) : Bool :=
  c == ' ' || c == '\t' || c == '\n' || c == '\r' ||
  c.toNat == 0x0b || c.toNat == 0x0c || c.toNat == 0xa0 || c.toNat == 0x1680 ||
  (0x2000 ≤ c.toNat && c.toNat ≤ 0x200a) || c.toNat == 0x2028 || c.toNat == 0x2029 ||
  c.toNat == 0x202f || c.toNat == 0x205f || c.toNat == 0x3000 || c.toNat == 0xfeff

/-- Removal of leading and trailing JavaScript whitespace from a character list. -/
def trimChars (l : List Char) : List Char :=
  ((l.dropWhile isJsWhitespace).reverse.dropWhile isJsWhitespace).reverse

/-- Model of JavaScript `s.trim()`. -/
def jsTrim (s : String) : String :=
  String.mk (trimChars s.data)

/-! ## Decimal numerals

JavaScript numbers are modelled as exact rationals.  `natToDecimal` renders a
natural number in decimal (no leading zeros, `"0"` for zero), exactly as
JavaScript renders integral doubles in the plain-decimal range. -/

/-- Character of a decimal digit value (0 ↦ '0', …, 9 ↦ '9'). -/
def digitChar (n : ℕ) : Char :=
  Char.ofNat ('0'.toNat + n)

/-- Numeric value of a decimal digit character. -/
def digitVal (c : Char) : ℕ :=
  c.toNat - '0'.toNat

/-- Value of a decimal digit string, most significant digit first. -/
def digitsVal (l : List Char) : ℕ :=
  l.foldl (fun a c => 10 * a + digitVal c) 0

/-- Fuel-driven decimal rendering; fuel `n + 1` always suffices for `n`. -/
def natToDecimalAux : ℕ → ℕ → List Char
  | 0, _ => []
  | fuel + 1, n =>
    if n < 10 then [digitChar n]
    else natToDecimalAux fuel (n / 10) ++ [digitChar (n % 10)]

/-- Decimal rendering of a natural number. -/
def natToDecimal (n : ℕ) : List Char :=
  natToDecimalAux (n + 1) n

/-- Number of times `p` divides `n` (fuel-driven; fuel `n` suffices since each
division at least halves a positive argument). -/
def factorCountAux (p : ℕ) : ℕ → ℕ → ℕ
  | 0, _ => 0
  | fuel + 1, n =>
    if 2 ≤ p ∧ n ≠ 0 ∧ n % p = 0 then factorCountAux p fuel (n / p) + 1 else 0

/-- Multiplicity of the prime `p` in `n`. -/
def factorCount (p n : ℕ) : ℕ :=
  factorCountAux p n n

/-- A denominator admitting a terminating decimal expansion: `d = 2^a * 5^b`.
Every IEEE-754 double is a rational with a power-of-two denominator, so every
JavaScript number satisfies this. -/
def terminatingDen (d : ℕ) : Prop :=
  d = 2 ^ factorCount 2 d * 5 ^ factorCount 5 d

instance (d : ℕ) : Decidable (terminatingDen d) := by
  unfold terminatingDen; infer_instance

/-- Decimal rendering of `digits / 10^k` (`k = 0` gives the integer form;
otherwise the digit string is left-padded with zeros to at least `k + 1`
characters and a decimal point is inserted `k` places from the right, which is
how JavaScript prints non-integral doubles in the plain-decimal range). -/
def decimalOfDigits (digits k : ℕ) : List Char :=
  if k = 0 then natToDecimal digits
  else
    let ds := natToDecimal digits
    let padded := List.replicate (k + 1 - ds.length) '0' ++ ds
    padded.take (padded.length - k) ++ '.' :: padded.drop (padded.length - k)

/-- Model of JavaScript `String(x)` for a finite number `x`, exact on rationals
with terminating decimal expansion (all JavaScript doubles).  The non-terminating
fallback branch is unreachable from JavaScript values.  Exponent display used by
JavaScript outside `[1e-6, 1e21)` is not modelled. -/
def numToString (q : ℚ) : String :=
  let a := factorCount 2 q.den
  let b := factorCount 5 q.den
  if q.den = 2 ^ a * 5 ^ b then
    let k := max a b
    String.mk ((if q < 0 then ['-'] else []) ++
      decimalOfDigits (q.num.natAbs * 10 ^ k / q.den) k)
  else
    String.mk ((if q < 0 then ['-'] else []) ++
      natToDecimal q.num.natAbs ++ '/' :: natToDecimal q.den)

/-- Overflow threshold of IEEE-754 binary64 under round-to-nearest: magnitudes
at or above `2^1024 - 2^970` become `Infinity`. -/
def jsMaxMagnitude : ℚ :=
  2 ^ 1024 - 2 ^ 970

/-- Model of JavaScript `isFinite` on the exact value produced by `Number`. -/
def isFiniteJs (q : ℚ) : Bool :=
  decide (|q| < jsMaxMagnitude)

/-! ## The numeric-field tests of `fromCSV` (src/unnamed/part_004 lines 224-225)

`numberPatternTest` decides the regular expression
`/^-?\d+(\.\d+)?(e[+-]?\d+)?$/i`, and `hasLeadingZeros` decides
`/^-?0+[1-9]/.test(s)`, both by direct character scans (maximal-munch spans are
equivalent to the regex because the relevant character classes are disjoint). -/

/-- Optional-exponent tail of the numeric pattern: empty, or `e`/`E`, an
optional sign, then one or more digits running to the end. -/
def expTail (l : List Char) : Bool :=
  match l with
  | [] => true
  | c :: rest =>
    (c == 'e' || c == 'E') &&
      (let rest' := if rest.head? = some '+' ∨ rest.head? = some '-' then rest.tail else rest
       !rest'.isEmpty && rest'.all Char.isDigit)

/-- Decision of `/^-?\d+(\.\d+)?(e[+-]?\d+)?$/i.test(s)`. -/
def numberPatternTest (s : String) : Bool :=
  let l := if s.data.head? = some '-' then s.data.tail else s.data
  let ds := l.takeWhile Char.isDigit
  let rest := l.dropWhile Char.isDigit
  !ds.isEmpty &&
    (if rest.head? = some '.' then
      !(rest.tail.takeWhile Char.isDigit).isEmpty &&
        expTail (rest.tail.dropWhile Char.isDigit)
    else expTail rest)

/-- Decision of `/^-?0+[1-9]/.test(s)` (an optional minus, one or more zeros,
then a nonzero digit, anywhere at the start of the string). -/
def hasLeadingZeros (s : String) : Bool :=
  let l := if s.data.head? = some '-' then s.data.tail else s.data
  let zs := l.takeWhile (· == '0')
  let rest := l.dropWhile (· == '0')
  !zs.isEmpty &&
    match rest.head? with
    | some c => decide ('1' ≤ c ∧ c ≤ '9')
    | none => false

/-- Model of JavaScript `Number(s)` on strings accepted by the numeric pattern:
sign, integer digits, optional fraction, optional exponent, combined exactly
over ℚ.  (JavaScript rounds the exact decimal value to the nearest double;
the claims below only evaluate it on exactly-representable inputs.) -/
def strToRat (s : String) : ℚ :=
  let l := if s.data.head? = some '-' then s.data.tail else s.data
  let ds := l.takeWhile Char.isDigit
  let r1 := l.dropWhile Char.isDigit
  let fracDigits := if r1.head? = some '.' then r1.tail.takeWhile Char.isDigit else []
  let r2 := if r1.head? = some '.' then r1.tail.dropWhile Char.isDigit else r1
  let e : ℤ :=
    if r2.head? = some 'e' ∨ r2.head? = some 'E' then
      if r2.tail.head? = some '-' then
        -(digitsVal (r2.tail.tail.takeWhile Char.isDigit) : ℤ)
      else if r2.tail.head? = some '+' then
        (digitsVal (r2.tail.tail.takeWhile Char.isDigit) : ℤ)
      else (digitsVal (r2.tail.takeWhile Char.isDigit) : ℤ)
    else 0
  let mag : ℚ :=
    ((digitsVal ds : ℚ) + (digitsVal fracDigits : ℚ) / 10 ^ fracDigits.length) *
      (10 : ℚ) ^ e
  if s.data.head? = some '-' then -mag else mag

/-! ## Cell values -/

/-- JavaScript values that can sit in a table cell: `null`, `undefined`, `NaN`,
a finite number (exact rational), or a string. -/
inductive Value where
  | null : Value
  | undef : Value
  | nan : Value
  | num (q : ℚ) : Value
  | str (s : String) : Value
deriving DecidableEq, Repr

/-- Type-inference policy applied by `fromCSV` to one raw field
(src/unnamed/part_004 lines 216-238, the body of the per-column loop): empty or
`null`/`NULL` after trimming is absent; a plain numeral without disallowed
leading zeros parses as a number when finite (`Number` on such a string is
never `NaN`, so the source's `Number.isNaN` guard cannot fire); anything else
stays the original untrimmed string. -/
def inferValue (value : String) : Value :=
  let trimmedValue := jsTrim value
  if trimmedValue == "" || trimmedValue == "null" || trimmedValue == "NULL" then
    Value.null
  else if numberPatternTest trimmedValue && !hasLeadingZeros trimmedValue then
    let numValue := strToRat trimmedValue
    if isFiniteJs numValue then Value.num numValue else Value.str value
  else
    Value.str value

/-! ## Rows and the DataFrame (src/unnamed/part_003)

A JavaScript row object is an ordered association list with distinct keys;
reading an absent property yields `undefined`, and assignment overwrites in
place (keeping the key's original position) or appends a fresh key. -/

/-- Row objects: column name / value pairs in key insertion order. -/
abbrev Row := List (String × Value)

/-- Model of JavaScript property read `row[k]` (`undefined` when absent). -/
def rowGet (row : Row) (k : String) : Value :=
  match row.find? (fun p => p.1 == k) with
  | some p => p.2
  | none => Value.undef

/-- Model of JavaScript property assignment `row[k] = v`. -/
def objSet : Row → String → Value → Row
  | [], k, v => [(k, v)]
  | (k', v') :: rest, k, v =>
    if k' == k then (k, v) :: rest else (k', v') :: objSet rest k v

/-- Errors thrown by the table operations (part_002, part_003: messages
`Column "…" does not exist` and `At least one column must be selected`). -/
inductive TableError where
  | unknownColumn (name : String) : TableError
  | invalidSelection : TableError
deriving DecidableEq, Repr

/-- The DataFrame record: row data plus column names. -/
structure DataFrame where
  data : List Row
  columns : List String
deriving DecidableEq, Repr

/-- The DataFrame constructor (part_003 lines 16-31): empty input gives zero
rows and zero columns, otherwise columns are `Object.keys` of the first row.
(The `typeof firstRow !== 'object'` throw is unrepresentable here: every `Row`
is an object.) -/
def DataFrame.make (data : List Row) : DataFrame :=
  match data with
  | [] => ⟨[], []⟩
  | firstRow :: _ => ⟨data, firstRow.map Prod.fst⟩

/-- Model of `DataFrame.getColumn` (part_003 lines 65-67): a plain map over the
rows with no existence check, so an unknown name yields `undefined` per row. -/
def DataFrame.getColumn (df : DataFrame) (columnName : String) : List Value :=
  df.data.map (fun row => rowGet row columnName)

/-- Row projection built by `select`'s inner loop (`selectedRow[col] = row[col]`). -/
def pickRow (columnNames : List String) (row : Row) : Row :=
  columnNames.foldl (fun acc col => objSet acc col (rowGet row col)) []

/-- Model of `DataFrame.select` (part_003 lines 73-94): empty selection throws,
the first name absent from the columns throws, otherwise a new DataFrame is
built from the projected rows. -/
def DataFrame.select (df : DataFrame) (columnNames : List String) :
    Except TableError DataFrame :=
  if columnNames.isEmpty then
    Except.error TableError.invalidSelection
  else
    match columnNames.find? (fun col => !df.columns.contains col) with
    | some col => Except.error (TableError.unknownColumn col)
    | none => Except.ok (DataFrame.make (df.data.map (pickRow columnNames)))

/-! ## Column type checks (src/unnamed/part_002) -/

/-- Model of `isNumeric` (part_002 lines 11-35): unknown column throws, empty
data is `false`, otherwise null/undefined cells are skipped and any non-number
or `NaN` cell refutes. -/
def isNumeric (df : DataFrame) (columnName : String) : Except TableError Bool :=
  if !df.columns.contains columnName then
    Except.error (TableError.unknownColumn columnName)
  else if df.data.isEmpty then
    Except.ok false
  else
    Except.ok (df.data.all (fun row =>
      match rowGet row columnName with
      | Value.null => true
      | Value.undef => true
      | Value.num _ => true
      | Value.nan => false
      | Value.str _ => false))

/-- Model of `isString` (part_002 lines 42-66): unknown column throws, empty
data is `false`, otherwise null/undefined cells are skipped and any non-string
cell refutes. -/
def isString (df : DataFrame) (columnName : String) : Except TableError Bool :=
  if !df.columns.contains columnName then
    Except.error (TableError.unknownColumn columnName)
  else if df.data.isEmpty then
    Except.ok false
  else
    Except.ok (df.data.all (fun row =>
      match rowGet row columnName with
      | Value.null => true
      | Value.undef => true
      | Value.str _ => true
      | Value.num _ => false
      | Value.nan => false))

/-- Result type of `getColumnType`. -/
inductive ColType where
  | number : ColType
  | string : ColType
  | mixed : ColType
  | empty : ColType
deriving DecidableEq, Repr

/-- Model of `getColumnType` (part_002 lines 74-98). -/
def getColumnType (df : DataFrame) (columnName : String) :
    Except TableError ColType :=
  if !df.columns.contains columnName then
    Except.error (TableError.unknownColumn columnName)
  else if df.data.isEmpty then
    Except.ok ColType.empty
  else do
    let hasNumber ← isNumeric df columnName
    let hasString ← isString df columnName
    if hasNumber && !hasString then pure ColType.number
    else if hasString && !hasNumber then pure ColType.string
    else pure ColType.mixed

/-- Model of `isNull` (src/unnamed/part_001 lines 26-37): unknown column
throws, otherwise one Boolean per row marking null/undefined cells. -/
def isNullMask (df : DataFrame) (columnName : String) :
    Except TableError (List Bool) :=
  if !df.columns.contains columnName then
    Except.error (TableError.unknownColumn columnName)
  else
    Except.ok (df.data.map (fun row =>
      match rowGet row columnName with
      | Value.null => true
      | Value.undef => true
      | _ => false))

/-! ## CSV codec (src/unnamed/part_004) -/

/-- Model of `strValue.replace(/"/g, '""')`: every quote doubled. -/
def doubleQuotesChars : List Char → List Char
  | [] => []
  | c :: rest =>
    if c = '"' then '"' :: '"' :: doubleQuotesChars rest
    else c :: doubleQuotesChars rest

/-- Model of `escapeCSVValue` (part_004 lines 27-46).  The numeric flag skips
all quoting; otherwise the value is wrapped in doubled-quote form exactly when
it contains a literal comma, a quote, `\n`, or `\r` — the source tests the
literal `','`, not the configured delimiter. -/
def escapeCSVValue (strValue : String) (numericFlag : Bool) : String :=
  if numericFlag then strValue
  else if strValue.data.contains ',' || strValue.data.contains '"' ||
      strValue.data.contains '\n' || strValue.data.contains '\r' then
    String.mk ('"' :: doubleQuotesChars strValue.data ++ ['"'])
  else strValue

/-- Scanner loop of `parseCSVRows` (part_004 lines 58-96), one step per source
iteration over characters, with the running field, row and row list as explicit
state.  The source's `i += 2` sub-branch for a row separator (`char === '\r' &&
nextChar === '\n'`) is unreachable — the enclosing guard requires
`nextChar !== '\n'` whenever `char === '\r'` — and is therefore omitted. -/
def parseLoop (delim : Char) :
    List Char → Bool → List Char → List (List Char) → List (List (List Char)) →
    List (List (List Char))
  | [], _inQ, current, currentRow, rows =>
    -- end of input (part_004 lines 98-102): push the last field, then the
    -- always-true emptiness test
    let currentRow' := currentRow ++ [current]
    if currentRow'.length > 0 || !current.isEmpty then rows ++ [currentRow'] else rows
  | '"' :: '"' :: rest, true, current, currentRow, rows =>
    -- escaped quote inside a quoted field (consumes both characters)
    parseLoop delim rest true (current ++ ['"']) currentRow rows
  | '"' :: cs, true, current, currentRow, rows =>
    -- closing quote
    parseLoop delim cs false current currentRow rows
  | '"' :: cs, false, current, currentRow, rows =>
    -- opening quote
    parseLoop delim cs true current currentRow rows
  | c :: cs, inQ, current, currentRow, rows =>
    -- here `c` is never `'"'`: the source tests `char === '"'` first
    if c == delim && !inQ then
      parseLoop delim cs inQ [] (currentRow ++ [current]) rows
    else if (c == '\n' || (c == '\r' && cs.head? != some '\n')) && !inQ then
      parseLoop delim cs inQ [] [] (rows ++ [currentRow ++ [current]])
    else
      parseLoop delim cs inQ (current ++ [c]) currentRow rows

/-- Model of `parseCSVRows` (part_004 lines 51-105).  The one-character source
delimiter is taken as a `Char`. -/
def parseCSVRows (csvString : String) (delimiter : Char) : List (List String) :=
  (parseLoop delimiter csvString.data false [] [] []).map (fun row => row.map String.mk)

/-- Model of JavaScript `Array.prototype.join(sep)`. -/
def joinStrings (sep : String) : List String → String
  | [] => ""
  | [x] => x
  | x :: xs => x ++ sep ++ joinStrings sep xs

/-- CSV export options (`delimiter`, `includeHeaders`), absent fields taking
the source defaults `','` and `true`. -/
structure CSVExportOptions where
  delimiter : Option Char := none
  includeHeaders : Option Bool := none

/-- CSV import options (`delimiter`, `hasHeaders`, `skipEmptyLines`), absent
fields taking the source defaults `','`, `true`, `true`. -/
structure CSVImportOptions where
  delimiter : Option Char := none
  hasHeaders : Option Bool := none
  skipEmptyLines : Option Bool := none

/-- Rendering of one cell by `toCSV`'s data-row loop (part_004 lines 141-148):
null/undefined become the empty field; a finite number takes the unquoted
numeric path; `NaN` stringifies to `"NaN"` on the string path; strings take the
string path. -/
def valueToCSVField (v : Value) : String :=
  match v with
  | Value.null => ""
  | Value.undef => ""
  | Value.num q => escapeCSVValue (numToString q) true
  | Value.nan => escapeCSVValue "NaN" false
  | Value.str s => escapeCSVValue s false

/-- Model of `toCSV` (part_004 lines 113-153).  Column names go through
`escapeCSVValue` with the numeric flag set to `true` at both call sites. -/
def toCSV (df : DataFrame) (options : CSVExportOptions) : String :=
  let delimiter := options.delimiter.getD ','
  let includeHeaders := options.includeHeaders.getD true
  if df.data.length == 0 then
    if df.columns.length > 0 && includeHeaders then
      joinStrings (String.singleton delimiter)
        (df.columns.map (fun col => escapeCSVValue col true))
    else ""
  else
    let headerLines :=
      if includeHeaders then
        [joinStrings (String.singleton delimiter)
          (df.columns.map (fun col => escapeCSVValue col true))]
      else []
    let dataLines := df.data.map (fun row =>
      joinStrings (String.singleton delimiter)
        (df.columns.map (fun col => valueToCSVField (rowGet row col))))
    joinStrings "\n" (headerLines ++ dataLines)

/-- Assembly of one typed row by `fromCSV` (part_004 lines 205-239): the raw
field list is right-padded with `""` to the column count, then each column
index assigns the inferred value of its field (`values[j] ?? ''` is always the
in-range `getD` after padding). -/
def buildRow (columnNames : List String) (rowValues : List String) : Row :=
  let values := rowValues ++ List.replicate (columnNames.length - rowValues.length) ""
  (List.range columnNames.length).foldl
    (fun row j => objSet row (columnNames.getD j "") (inferValue (values.getD j ""))) []

/-- Model of `fromCSV` (part_004 lines 160-253).  `!csvString` (empty-string
falsiness) and the whitespace test are both kept; `column${index+1}` names are
synthesized over the first row's indices when headers are absent. -/
def fromCSV (csvString : String) (options : CSVImportOptions) : DataFrame :=
  let delimiter := options.delimiter.getD ','
  let hasHeaders := options.hasHeaders.getD true
  let skipEmptyLines := options.skipEmptyLines.getD true
  if csvString == "" || jsTrim csvString == "" then DataFrame.make []
  else
    let rows := parseCSVRows csvString delimiter
    let filteredRows :=
      if skipEmptyLines then
        rows.filter (fun row => row.any (fun cell => !(jsTrim cell == "")))
      else rows
    if filteredRows.isEmpty then DataFrame.make []
    else
      let columnNames :=
        if hasHeaders then filteredRows.headD []
        else (List.range (filteredRows.headD []).length).map
          (fun index => "column" ++ String.mk (natToDecimal (index + 1)))
      let dataStartIndex := if hasHeaders then 1 else 0
      if columnNames.isEmpty then DataFrame.make []
      else
        let data := (filteredRows.drop dataStartIndex).map
          (fun rowValues => buildRow columnNames rowValues)
        if data.isEmpty then
          DataFrame.make [columnNames.foldl (fun row col => objSet row col Value.null) []]
        else DataFrame.make data

/-- A rendered field `rendered` that the tokenizer consumes into the raw field
content `raw`, leaving the scanner just before the following separator (which
must not open with a quote). -/
def ScansTo (rendered : String) (raw : List Char) : Prop :=
  ∀ (cs : List Char) (currentRow : List (List Char)) (rows : List (List (List Char))),
    cs.head? ≠ some '"' →
    parseLoop ',' (rendered.data ++ cs) false [] currentRow rows =
      parseLoop ',' cs false raw currentRow rows

/-- Raw field text that the tokenizer recovers from one written cell. -/
def rawField : Value → String
  | Value.null => ""
  | Value.undef => ""
  | Value.nan => "NaN"
  | Value.num q => numToString q
  | Value.str s => s

/-- Cells in the round-trip claim's scope: absent, a finite JavaScript number
(finite, terminating decimal — every IEEE-754 double is such a rational), or a
string that the reader's inference keeps as that same string. -/
def cellOK : Value → Prop
  | Value.null => True
  | Value.undef => False
  | Value.nan => False
  | Value.num q => terminatingDen q.den ∧ isFiniteJs q = true
  | Value.str s => inferValue s = Value.str s

instance (v : Value) : Decidable (cellOK v) := by
  cases v <;> simp only [cellOK] <;> infer_instance

/-! ## Claim C2: row-terminator handling of the tokenizer -/

/-- C2.  The claim states that `"a,b\r\nc,d"`, `"a,b\nc,d"` and `"a,b\rc,d"`
all parse to `[["a","b"],["c","d"]]`.  The code refutes it: bare `\n` and bare
`\r` do terminate rows, but in `\r\n` the guard
`char === '\r' && nextChar !== '\n'` rejects the `\r`, which therefore falls
through into the field content, and the `\r\n` input parses to
`[["a","b\r"],["c","d"]]`.  (The source's `i += 2 // Skip \r\n` branch is dead
code under that guard, which is why this is recorded as a code bug.) -/
theorem claim_C2_crlf_divergence :
    parseCSVRows "a,b\nc,d" ',' = [["a", "b"], ["c", "d"]] ∧
    parseCSVRows "a,b\rc,d" ',' = [["a", "b"], ["c", "d"]] ∧
    parseCSVRows "a,b\r\nc,d" ',' = [["a", "b\r"], ["c", "d"]] ∧
    parseCSVRows "a,b\r\nc,d" ',' ≠ parseCSVRows "a,b\nc,d" ',' := by
  refine ⟨by decide, by decide, by decide, by decide⟩

/-! ## Claim C5: end-of-input flush of the tokenizer -/

/-- C5.  The claim states that no trailing row of a single empty field is
emitted when the input already ends in a row terminator.  The code refutes it:
the final `currentRow.push(current)` runs before the emptiness test
`currentRow.length > 0 || current !== ''`, so the test is always true and
`"a,b\n"` parses to `[["a","b"],[""]]` with a spurious trailing empty row
(likewise the empty input parses to `[[""]]`, not to zero rows). -/
theorem claim_C5_spurious_trailing_row :
    parseCSVRows "a,b\n" ',' = [["a", "b"], [""]] ∧
    parseCSVRows "a,b\n" ',' ≠ [["a", "b"]] ∧
    parseCSVRows "" ',' = [[""]] := by
  refine ⟨by decide, by decide, by decide⟩

/-! ## Claim C3: the value escaper and the configured delimiter -/

/-- C3.  The claim states that a string value is quoted iff it contains the
configured delimiter, a quote, `\n` or `\r`.  The code refutes it: the escaper
tests the literal comma and never the configured delimiter, so with delimiter
`';'` the value `"a;b"` is rendered verbatim (producing ambiguous CSV) while
`"a,b"` is quoted although `','` is not the delimiter. -/
theorem claim_C3_escaper_ignores_delimiter :
    escapeCSVValue "a;b" false = "a;b" ∧
    escapeCSVValue "a,b" false = "\"a,b\"" ∧
    toCSV (DataFrame.make [[("h", Value.str "a;b")]])
      { delimiter := some ';' } = "h\na;b" ∧
    toCSV (DataFrame.make [[("h", Value.str "a;b")]])
      { delimiter := some ';' } ≠ "h\n\"a;b\"" := by
  refine ⟨by decide, by decide, by decide, by decide⟩

/-! ## Basic facts about the embedded operations -/

theorem escapeCSVValue_numeric (s : String) : escapeCSVValue s true = s := rfl

theorem joinStrings_cons (sep x : String) (xs : List String) (h : xs ≠ []) :
    joinStrings sep (x :: xs) = x ++ sep ++ joinStrings sep xs := by
  cases xs with
  | nil => exact absurd rfl h
  | cons y ys => rfl

theorem make_zero_rows_zero_columns (l : List Row) :
    (DataFrame.make l).data = [] → (DataFrame.make l).columns = [] := by
  cases l with
  | nil => intro _; rfl
  | cons r rs => intro h; simp [DataFrame.make] at h

theorem fromCSV_shape (s : String) (opts : CSVImportOptions) :
    ∃ l, fromCSV s opts = DataFrame.make l := by
  unfold fromCSV
  dsimp only
  repeat' split
  all_goals exact ⟨_, rfl⟩

theorem rowGet_of_not_mem_keys (row : Row) (name : String)
    (h : ∀ p ∈ row, p.1 ≠ name) : rowGet row name = Value.undef := by
  unfold rowGet
  have : row.find? (fun p => p.1 == name) = none := by
    apply List.find?_eq_none.mpr
    intro p hp
    simpa using h p hp
  rw [this]

/-! ## Claim C4: escaping of the header line -/

/-- C4 counterexample.  The claim states that a column name containing the
delimiter is wrapped in quotes in the header line.  The code refutes it: both
header call sites pass the numeric flag `true` to `escapeCSVValue`, which skips
quoting entirely, so the name `"a,b"` is emitted verbatim. -/
theorem claim_C4_counterexample :
    toCSV (DataFrame.make [[("a,b", Value.str "x")]]) ⟨none, none⟩ = "a,b\nx" ∧
    toCSV (DataFrame.make [[("a,b", Value.str "x")]]) ⟨none, none⟩ ≠ "\"a,b\"\nx" := by
  refine ⟨by decide, by decide⟩

/-- C4 amended.  When `toCSV` emits a header line, every column name is
rendered verbatim through the numeric escaping path: the header line is
exactly the delimiter-join of the names as written, with no quoting even for
names containing the delimiter, a quote or a newline (and hence also no
numeric reformatting of names that look like numbers). -/
theorem claim_C4_amended (df : DataFrame) (delim : Char) (hne : df.data ≠ []) :
    toCSV df ⟨some delim, none⟩ =
      joinStrings (String.singleton delim) df.columns ++ "\n" ++
        joinStrings "\n" (df.data.map (fun row =>
          joinStrings (String.singleton delim)
            (df.columns.map (fun col => valueToCSVField (rowGet row col))))) := by
  unfold toCSV
  dsimp only [Option.getD]
  have hlen : (df.data.length == 0) = false := by
    simp [List.length_eq_zero, hne]
  rw [hlen]
  simp only [Bool.false_eq_true, if_false, if_true, escapeCSVValue_numeric, List.map_id]
  have hmap : df.data.map (fun row =>
      joinStrings (String.singleton delim)
        (df.columns.map (fun col => valueToCSVField (rowGet row col)))) ≠ [] := by
    simpa using hne
  rw [List.singleton_append, joinStrings_cons _ _ _ hmap]
  simp [List.map_id']

/-- C4 witness: the amended statement applied to a one-row table whose single
column name contains both the delimiter of the file and a comma. -/
theorem claim_C4_amended_witness :
    (DataFrame.make [[("a,b", Value.str "x")]]).data ≠ [] ∧
    toCSV (DataFrame.make [[("a,b", Value.str "x")]]) ⟨some ';', none⟩ =
      joinStrings (String.singleton ';')
        (DataFrame.make [[("a,b", Value.str "x")]]).columns ++ "\n" ++
        joinStrings "\n" ((DataFrame.make [[("a,b", Value.str "x")]]).data.map (fun row =>
          joinStrings (String.singleton ';')
            ((DataFrame.make [[("a,b", Value.str "x")]]).columns.map
              (fun col => valueToCSVField (rowGet row col))))) :=
  ⟨by decide, claim_C4_amended (DataFrame.make [[("a,b", Value.str "x")]]) ';' (by decide)⟩

/-! ## Claim C6: behaviour of column-addressed operations on unknown names -/

/-- C6 counterexample.  The claim states that `DataFrame.getColumn` fails with
an `UnknownColumn` error for a name absent from the columns.  The code refutes
it: `getColumn` is a bare `data.map(row => row[columnName])` with no existence
check, so it cannot fail, and on an unknown name it returns one JavaScript
`undefined` per row. -/
theorem claim_C6_counterexample :
    "b" ∉ (DataFrame.make [[("a", Value.str "x")]]).columns ∧
    DataFrame.getColumn (DataFrame.make [[("a", Value.str "x")]]) "b" = [Value.undef] := by
  refine ⟨by decide, by decide⟩

/-- C6 amended.  For a name absent from a table's columns, `select`,
`isNumeric`, `isString`, `getColumnType` and `isNull` all fail with the
unknown-column error, while `getColumn` performs no check and returns one
`undefined` per row; for a present name `getColumn` returns that column's
values in row order without failing. -/
theorem claim_C6_amended (df : DataFrame) (name : String)
    (hwf : ∀ row ∈ df.data, row.map Prod.fst = df.columns) :
    (name ∉ df.columns →
      DataFrame.select df [name] = Except.error (TableError.unknownColumn name) ∧
      isNumeric df name = Except.error (TableError.unknownColumn name) ∧
      isString df name = Except.error (TableError.unknownColumn name) ∧
      getColumnType df name = Except.error (TableError.unknownColumn name) ∧
      isNullMask df name = Except.error (TableError.unknownColumn name) ∧
      DataFrame.getColumn df name = df.data.map (fun _ => Value.undef)) ∧
    (name ∈ df.columns →
      DataFrame.getColumn df name = df.data.map (fun row => rowGet row name)) := by
  constructor
  · intro habs
    refine ⟨?_, ?_, ?_, ?_, ?_, ?_⟩
    · unfold DataFrame.select
      simp [habs]
    · unfold isNumeric
      simp [habs]
    · unfold isString
      simp [habs]
    · unfold getColumnType
      simp [habs]
    · unfold isNullMask
      simp [habs]
    · unfold DataFrame.getColumn
      apply List.map_congr_left
      intro row hrow
      apply rowGet_of_not_mem_keys
      intro p hp
      intro hcontra
      apply habs
      rw [← hwf row hrow]
      exact hcontra ▸ List.mem_map_of_mem Prod.fst hp
  · intro _
    rfl

/-- C6 witness: the amended statement applied to a one-row, one-column table
and the absent name `"b"` / the present name `"a"`. -/
theorem claim_C6_amended_witness :
    (DataFrame.select (DataFrame.make [[("a", Value.str "x")]]) ["b"] =
      Except.error (TableError.unknownColumn "b") ∧
     isNumeric (DataFrame.make [[("a", Value.str "x")]]) "b" =
      Except.error (TableError.unknownColumn "b") ∧
     isString (DataFrame.make [[("a", Value.str "x")]]) "b" =
      Except.error (TableError.unknownColumn "b") ∧
     getColumnType (DataFrame.make [[("a", Value.str "x")]]) "b" =
      Except.error (TableError.unknownColumn "b") ∧
     isNullMask (DataFrame.make [[("a", Value.str "x")]]) "b" =
      Except.error (TableError.unknownColumn "b") ∧
     DataFrame.getColumn (DataFrame.make [[("a", Value.str "x")]]) "b" =
      (DataFrame.make [[("a", Value.str "x")]]).data.map (fun _ => Value.undef)) ∧
    DataFrame.getColumn (DataFrame.make [[("a", Value.str "x")]]) "a" =
      (DataFrame.make [[("a", Value.str "x")]]).data.map (fun row => rowGet row "a") :=
  ⟨(claim_C6_amended (DataFrame.make [[("a", Value.str "x")]]) "b" (by decide)).1 (by decide),
   (claim_C6_amended (DataFrame.make [[("a", Value.str "x")]]) "a" (by decide)).2 (by decide)⟩

/-! ## Claim C10: all-null columns pass both type checks -/

/-- C10.  For a nonempty table and an existing column whose cells are all
null or undefined, `isNumeric` and `isString` both return `true` (null and
undefined cells are skipped by both scans), so `getColumnType` falls through to
`'mixed'`. -/
theorem claim_C10_all_null_column (df : DataFrame) (name : String)
    (hne : df.data ≠ [])
    (hmem : name ∈ df.columns)
    (hnull : ∀ row ∈ df.data,
      rowGet row name = Value.null ∨ rowGet row name = Value.undef) :
    isNumeric df name = Except.ok true ∧
    isString df name = Except.ok true ∧
    getColumnType df name = Except.ok ColType.mixed := by
  have hc : df.columns.contains name = true := by simpa using hmem
  have hee : df.data.isEmpty = false := by
    simpa [List.isEmpty_iff] using hne
  have hnum : isNumeric df name = Except.ok true := by
    unfold isNumeric
    rw [hc, hee]
    simp only [Bool.not_true, Bool.false_eq_true, if_false]
    congr 1
    apply List.all_eq_true.mpr
    intro row hrow
    rcases hnull row hrow with h | h <;> rw [h]
  have hstr : isString df name = Except.ok true := by
    unfold isString
    rw [hc, hee]
    simp only [Bool.not_true, Bool.false_eq_true, if_false]
    congr 1
    apply List.all_eq_true.mpr
    intro row hrow
    rcases hnull row hrow with h | h <;> rw [h]
  refine ⟨hnum, hstr, ?_⟩
  unfold getColumnType
  rw [hc, hee]
  simp only [Bool.not_true, Bool.false_eq_true, if_false]
  rw [hnum, hstr]
  rfl

/-- C10 witness: a one-row table whose single column holds `null`. -/
theorem claim_C10_witness :
    isNumeric (DataFrame.make [[("a", Value.null)]]) "a" = Except.ok true ∧
    isString (DataFrame.make [[("a", Value.null)]]) "a" = Except.ok true ∧
    getColumnType (DataFrame.make [[("a", Value.null)]]) "a" = Except.ok ColType.mixed :=
  claim_C10_all_null_column (DataFrame.make [[("a", Value.null)]]) "a"
    (by decide) (by decide) (by decide)

/-! ## Claim C9: zero rows implies zero columns -/

/-- C9.  Every table produced by the constructor, by `select`, or by `fromCSV`
satisfies the invariant that zero rows forces zero columns; and a headers-only
CSV file yields one synthesized all-null row (so column structure survives
without violating the invariant). -/
theorem claim_C9_zero_rows_zero_columns :
    (∀ data : List Row,
      (DataFrame.make data).data = [] → (DataFrame.make data).columns = []) ∧
    (∀ (df : DataFrame) (cols : List String) (df' : DataFrame),
      DataFrame.select df cols = Except.ok df' → df'.data = [] → df'.columns = []) ∧
    (∀ (s : String) (opts : CSVImportOptions),
      (fromCSV s opts).data = [] → (fromCSV s opts).columns = []) ∧
    (fromCSV "name,age,city" ⟨none, none, none⟩).data =
      [[("name", Value.null), ("age", Value.null), ("city", Value.null)]] ∧
    (fromCSV "name,age,city" ⟨none, none, none⟩).columns = ["name", "age", "city"] := by
  refine ⟨make_zero_rows_zero_columns, ?_, ?_, by decide, by decide⟩
  · intro df cols df' hok
    unfold DataFrame.select at hok
    split at hok
    · exact absurd hok (by simp)
    · split at hok
      · exact absurd hok (by simp)
      · injection hok with hok'
        rw [← hok']
        exact make_zero_rows_zero_columns _
  · intro s opts
    obtain ⟨l, hl⟩ := fromCSV_shape s opts
    rw [hl]
    exact make_zero_rows_zero_columns l

/-- C9 witness: the constructor part at the empty row list, the `select` part
at a record with empty data, and the `fromCSV` part at the empty string. -/
theorem claim_C9_witness :
    (DataFrame.make ([] : List Row)).columns = [] ∧
    (DataFrame.make ([] : List Row)).columns = [] ∧
    (fromCSV "" ⟨none, none, none⟩).columns = [] :=
  ⟨claim_C9_zero_rows_zero_columns.1 [] rfl,
   claim_C9_zero_rows_zero_columns.2.1 ⟨[], ["a"]⟩ ["a"] (DataFrame.make []) rfl rfl,
   claim_C9_zero_rows_zero_columns.2.2.1 "" ⟨none, none, none⟩ (by decide)⟩

/-! ## Row assembly: `objSet` folds build association rows in column order -/

theorem objSet_of_not_mem (row : Row) (k : String) (v : Value)
    (h : ∀ p ∈ row, p.1 ≠ k) : objSet row k v = row ++ [(k, v)] := by
  induction row with
  | nil => rfl
  | cons p rest ih =>
    obtain ⟨k', v'⟩ := p
    have hp : k' ≠ k := h (k', v') (List.mem_cons_self _ rest)
    have hb : (k' == k) = false := beq_eq_false_iff_ne.mpr hp
    simp only [objSet, hb, Bool.false_eq_true, if_false, List.cons_append]
    rw [ih (fun q hq => h q (List.mem_cons_of_mem _ hq))]

theorem foldl_objSet_range (keys : List String) (g : ℕ → Value)
    (hnd : keys.Nodup) :
    ∀ n, n ≤ keys.length →
      (List.range n).foldl (fun row j => objSet row (keys.getD j "") (g j)) [] =
        (List.range n).map (fun j => (keys.getD j "", g j)) := by
  intro n
  induction n with
  | zero => intro _; rfl
  | succ m ih =>
    intro hle
    have hm : m ≤ keys.length := Nat.le_of_succ_le hle
    have hmlt : m < keys.length := hle
    rw [List.range_succ, List.foldl_append, List.map_append, ih hm]
    simp only [List.foldl_cons, List.foldl_nil, List.map_cons, List.map_nil]
    apply objSet_of_not_mem
    intro p hp
    obtain ⟨j, hj, rfl⟩ := List.mem_map.mp hp
    have hjlt : j < keys.length := lt_of_lt_of_le (List.mem_range.mp hj) hm
    rw [List.getD_eq_getElem keys "" hjlt, List.getD_eq_getElem keys "" hmlt]
    simp only [ne_eq, List.Nodup.getElem_inj_iff hnd]
    exact Nat.ne_of_lt (List.mem_range.mp hj)

theorem zip_eq_range_map (a : List String) (b : List Value)
    (h : a.length ≤ b.length) :
    a.zip b = (List.range a.length).map (fun j => (a.getD j "", b.getD j Value.null)) := by
  apply List.ext_getElem
  · simp [Nat.min_eq_left h]
  · intro i hi hi'
    have hia : i < a.length := by
      simpa [Nat.min_eq_left h] using hi
    have hib : i < b.length := lt_of_lt_of_le hia h
    simp only [List.getElem_zip, List.getElem_map, List.getElem_range,
      List.getD_eq_getElem a "" hia, List.getD_eq_getElem b Value.null hib]

/-- Characterization of `buildRow`: with distinct column names, the assembled
row is the zip of the names with the inferred values of the padded (and, by
the truncating zip, right-truncated) raw fields. -/
theorem buildRow_eq_zip (columnNames rowValues : List String)
    (hnd : columnNames.Nodup) :
    buildRow columnNames rowValues =
      columnNames.zip
        ((rowValues ++
          List.replicate (columnNames.length - rowValues.length) "").map inferValue) := by
  unfold buildRow
  have hlen : columnNames.length ≤
      ((rowValues ++
        List.replicate (columnNames.length - rowValues.length) "").map inferValue).length := by
    simp only [List.length_map, List.length_append, List.length_replicate]
    omega
  rw [zip_eq_range_map _ _ hlen]
  rw [foldl_objSet_range columnNames
    (fun j =>
      inferValue ((rowValues ++
        List.replicate (columnNames.length - rowValues.length) "").getD j ""))
    hnd columnNames.length (le_refl _)]
  apply List.map_congr_left
  intro j hj
  have hjlt : j < columnNames.length := List.mem_range.mp hj
  congr 1
  have hjp : j < (rowValues ++
      List.replicate (columnNames.length - rowValues.length) "").length := by
    simp only [List.length_append, List.length_replicate]
    omega
  rw [List.getD_eq_getElem _ Value.null (by simpa using hjp),
    List.getD_eq_getElem _ "" hjp, List.getElem_map]

/-! ## Claim C8: reconciliation of ragged rows -/

/-- C8.  Ragged rows are reconciled, never rejected: a parsed data row is
right-padded with empty fields (which infer to absent) up to the column count,
extra trailing fields are dropped by the zip truncation, and the assembled row
has exactly the header's columns.  The two concrete instances of the claim:
with header `a,b,c`, the row `x,y` gets `c` absent, and the row `x,y,z,extra`
has exactly three columns with `extra` dropped. -/
theorem claim_C8_ragged_rows :
    (∀ (columnNames rowValues : List String), columnNames.Nodup →
      buildRow columnNames rowValues =
        columnNames.zip
          ((rowValues ++
            List.replicate (columnNames.length - rowValues.length) "").map inferValue)) ∧
    inferValue "" = Value.null ∧
    (∀ (columnNames rowValues : List String), columnNames.Nodup →
      (buildRow columnNames rowValues).map Prod.fst = columnNames) ∧
    fromCSV "a,b,c\nx,y" ⟨none, none, none⟩ =
      DataFrame.make [[("a", Value.str "x"), ("b", Value.str "y"), ("c", Value.null)]] ∧
    fromCSV "a,b,c\nx,y,z,extra" ⟨none, none, none⟩ =
      DataFrame.make [[("a", Value.str "x"), ("b", Value.str "y"), ("c", Value.str "z")]] := by
  have hzip := buildRow_eq_zip
  refine ⟨hzip, by decide, ?_, by decide, by decide⟩
  intro columnNames rowValues hnd
  rw [hzip columnNames rowValues hnd]
  apply List.map_fst_zip
  simp only [List.length_map, List.length_append, List.length_replicate]
  omega

/-- C8 witness: the padding part of the statement applied to header `a,b,c`
and the two-field row `x,y`. -/
theorem claim_C8_witness :
    buildRow ["a", "b", "c"] ["x", "y"] =
      ["a", "b", "c"].zip
        ((["x", "y"] ++
          List.replicate (["a", "b", "c"].length - ["x", "y"].length) "").map inferValue) :=
  claim_C8_ragged_rows.1 ["a", "b", "c"] ["x", "y"] (by decide)

/-! ## Concrete rational evaluations (the kernel cannot reduce ℚ arithmetic,
so these are established by `norm_num`) -/

theorem strToRat_zero : strToRat "0" = 0 := by
  have h : strToRat "0" =
      (((0 : ℕ) : ℚ) + ((0 : ℕ) : ℚ) / 10 ^ (0 : ℕ)) * (10 : ℚ) ^ (0 : ℤ) := rfl
  rw [h]
  norm_num

theorem strToRat_half : strToRat "0.5" = (0.5 : ℚ) := by
  have h : strToRat "0.5" =
      (((0 : ℕ) : ℚ) + ((5 : ℕ) : ℚ) / 10 ^ (1 : ℕ)) * (10 : ℚ) ^ (0 : ℤ) := rfl
  rw [h]
  norm_num

theorem one_le_jsMaxMagnitude : (1 : ℚ) ≤ jsMaxMagnitude := by
  unfold jsMaxMagnitude
  norm_num

theorem isFiniteJs_of_abs_lt_one (q : ℚ) (h : |q| < 1) : isFiniteJs q = true := by
  simp only [isFiniteJs, decide_eq_true_eq]
  exact lt_of_lt_of_le h one_le_jsMaxMagnitude

/-! ## Claim C7: leading-zero numerals stay strings -/

/-- C7.  Value inference preserves leading-zero numerals as strings while
converting plain numerals: any field whose trimmed text starts with an
optional minus, one or more zeros and then a nonzero digit (the source's
`/^-?0+[1-9]/`) is kept as the original untrimmed string; `fromCSV` on the
field `001` yields the string `"001"`; and the fields `"0"` and `"0.5"` yield
the numbers `0` and `0.5`. -/
theorem claim_C7_leading_zero_preservation :
    (∀ value : String,
      hasLeadingZeros (jsTrim value) = true → inferValue value = Value.str value) ∧
    fromCSV "id\n001" ⟨none, none, none⟩ =
      DataFrame.make [[("id", Value.str "001")]] ∧
    inferValue "0" = Value.num 0 ∧
    inferValue "0.5" = Value.num (0.5 : ℚ) := by
  refine ⟨?_, by decide, ?_, ?_⟩
  · intro value h
    have hne1 : jsTrim value ≠ "" := fun he => absurd (he ▸ h) (by decide)
    have hne2 : jsTrim value ≠ "null" := fun he => absurd (he ▸ h) (by decide)
    have hne3 : jsTrim value ≠ "NULL" := fun he => absurd (he ▸ h) (by decide)
    have hb1 : (jsTrim value == "") = false := beq_eq_false_iff_ne.mpr hne1
    have hb2 : (jsTrim value == "null") = false := beq_eq_false_iff_ne.mpr hne2
    have hb3 : (jsTrim value == "NULL") = false := beq_eq_false_iff_ne.mpr hne3
    simp only [inferValue, hb1, hb2, hb3, h, Bool.or_self, Bool.or_false,
      Bool.not_true, Bool.and_false, Bool.false_eq_true, if_false]
  · have ht : jsTrim "0" = "0" := by decide
    have hc1 : ((jsTrim "0" == "" || jsTrim "0" == "null") || jsTrim "0" == "NULL")
        = false := by decide
    have hc2 : (numberPatternTest (jsTrim "0") && !hasLeadingZeros (jsTrim "0"))
        = true := by decide
    simp only [inferValue, hc1, hc2, Bool.false_eq_true, if_false, if_true, ht,
      strToRat_zero]
    rw [isFiniteJs_of_abs_lt_one 0 (by norm_num)]
    rfl
  · have ht : jsTrim "0.5" = "0.5" := by decide
    have hc1 : ((jsTrim "0.5" == "" || jsTrim "0.5" == "null") || jsTrim "0.5" == "NULL")
        = false := by decide
    have hc2 : (numberPatternTest (jsTrim "0.5") && !hasLeadingZeros (jsTrim "0.5"))
        = true := by decide
    simp only [inferValue, hc1, hc2, Bool.false_eq_true, if_false, if_true, ht,
      strToRat_half]
    rw [isFiniteJs_of_abs_lt_one (0.5 : ℚ) (by rw [abs_lt]; constructor <;> norm_num)]
    rfl

/-- C7 witness: the universal part applied to the field `"001"`. -/
theorem claim_C7_witness :
    hasLeadingZeros (jsTrim "001") = true ∧ inferValue "001" = Value.str "001" :=
  ⟨by decide, claim_C7_leading_zero_preservation.1 "001" (by decide)⟩

/-! ## Single steps of the tokenizer loop -/

theorem parseLoop_nil (delim : Char) (inQ : Bool) (current : List Char)
    (currentRow : List (List Char)) (rows : List (List (List Char))) :
    parseLoop delim [] inQ current currentRow rows =
      rows ++ [currentRow ++ [current]] := by
  simp [parseLoop]

theorem parseLoop_open_quote (delim : Char) (cs : List Char) (current : List Char)
    (currentRow : List (List Char)) (rows : List (List (List Char))) :
    parseLoop delim ('"' :: cs) false current currentRow rows =
      parseLoop delim cs true current currentRow rows := by
  cases cs <;> simp [parseLoop]

theorem parseLoop_escaped_quote (delim : Char) (rest : List Char) (current : List Char)
    (currentRow : List (List Char)) (rows : List (List (List Char))) :
    parseLoop delim ('"' :: '"' :: rest) true current currentRow rows =
      parseLoop delim rest true (current ++ ['"']) currentRow rows := rfl

theorem parseLoop_close_quote (delim : Char) (cs : List Char) (current : List Char)
    (currentRow : List (List Char)) (rows : List (List (List Char)))
    (h : cs.head? ≠ some '"') :
    parseLoop delim ('"' :: cs) true current currentRow rows =
      parseLoop delim cs false current currentRow rows := by
  cases cs with
  | nil => rfl
  | cons c cs' =>
    have hc : ¬c = '"' := by simpa using h
    simp [parseLoop, hc]

theorem parseLoop_quoted_char (delim c : Char) (cs : List Char) (current : List Char)
    (currentRow : List (List Char)) (rows : List (List (List Char)))
    (hq : c ≠ '"') :
    parseLoop delim (c :: cs) true current currentRow rows =
      parseLoop delim cs true (current ++ [c]) currentRow rows := by
  cases cs <;> simp [parseLoop, hq]

theorem parseLoop_plain_char (delim c : Char) (cs : List Char) (current : List Char)
    (currentRow : List (List Char)) (rows : List (List (List Char)))
    (hq : c ≠ '"') (hd : c ≠ delim) (hn : c ≠ '\n') (hr : c ≠ '\r') :
    parseLoop delim (c :: cs) false current currentRow rows =
      parseLoop delim cs false (current ++ [c]) currentRow rows := by
  cases cs <;> simp [parseLoop, hq, hd, hn, hr]

theorem parseLoop_delim_char (delim : Char) (cs : List Char) (current : List Char)
    (currentRow : List (List Char)) (rows : List (List (List Char)))
    (hq : delim ≠ '"') :
    parseLoop delim (delim :: cs) false current currentRow rows =
      parseLoop delim cs false [] (currentRow ++ [current]) rows := by
  cases cs <;> simp [parseLoop, hq]

theorem parseLoop_newline (delim : Char) (cs : List Char) (current : List Char)
    (currentRow : List (List Char)) (rows : List (List (List Char)))
    (hd : delim ≠ '\n') :
    parseLoop delim ('\n' :: cs) false current currentRow rows =
      parseLoop delim cs false [] [] (rows ++ [currentRow ++ [current]]) := by
  have hd' : ('\n' : Char) ≠ delim := Ne.symm hd
  cases cs <;> simp [parseLoop, hd']

/-! ## Runs of the tokenizer over rendered fields -/

theorem parseLoop_plain_run (delim : Char) (l : List Char)
    (hl : ∀ c ∈ l, c ≠ '"' ∧ c ≠ delim ∧ c ≠ '\n' ∧ c ≠ '\r') :
    ∀ (cs current : List Char) (currentRow : List (List Char))
      (rows : List (List (List Char))),
      parseLoop delim (l ++ cs) false current currentRow rows =
        parseLoop delim cs false (current ++ l) currentRow rows := by
  induction l with
  | nil => intro cs current currentRow rows; simp
  | cons c l' ih =>
    intro cs current currentRow rows
    obtain ⟨hq, hd, hn, hr⟩ := hl c (List.mem_cons_self _ _)
    rw [List.cons_append, parseLoop_plain_char delim c _ _ _ _ hq hd hn hr,
      ih (fun x hx => hl x (List.mem_cons_of_mem _ hx)) cs (current ++ [c])]
    simp

theorem parseLoop_quoted_run (delim : Char) (l : List Char) :
    ∀ (cs current : List Char) (currentRow : List (List Char))
      (rows : List (List (List Char))), cs.head? ≠ some '"' →
      parseLoop delim (doubleQuotesChars l ++ '"' :: cs) true current currentRow rows =
        parseLoop delim cs false (current ++ l) currentRow rows := by
  induction l with
  | nil =>
    intro cs current currentRow rows h
    simp only [doubleQuotesChars, List.nil_append, List.append_nil]
    exact parseLoop_close_quote delim cs current currentRow rows h
  | cons c l' ih =>
    intro cs current currentRow rows h
    by_cases hc : c = '"'
    · subst hc
      simp only [doubleQuotesChars, eq_self_iff_true, if_true, List.cons_append]
      rw [parseLoop_escaped_quote, ih cs _ _ _ h]
      simp
    · simp only [doubleQuotesChars, if_neg hc, List.cons_append]
      rw [parseLoop_quoted_char delim c _ _ _ _ hc, ih cs _ _ _ h]
      simp

/-! ## Field, line and text runs for the default comma delimiter -/

theorem scansTo_plain (f : String)
    (hf : ∀ c ∈ f.data, c ≠ '"' ∧ c ≠ ',' ∧ c ≠ '\n' ∧ c ≠ '\r') :
    ScansTo f f.data := by
  intro cs currentRow rows _
  rw [parseLoop_plain_run ',' f.data hf cs [] currentRow rows]
  simp

theorem head_cons_ne_quote (c : Char) (cs : List Char) (h : c ≠ '"') :
    (c :: cs).head? ≠ some '"' := by
  simpa using h

theorem comma_data : (",").data = [','] := rfl

theorem lf_data : ("\n").data = ['\n'] := rfl

theorem scansTo_escape (f : String) : ScansTo (escapeCSVValue f false) f.data := by
  intro cs currentRow rows h
  simp only [escapeCSVValue, Bool.false_eq_true, if_false]
  by_cases hsp : (f.data.contains ',' || f.data.contains '"' ||
      f.data.contains '\n' || f.data.contains '\r') = true
  · rw [if_pos hsp]
    show parseLoop ','
      (('"' :: (doubleQuotesChars f.data ++ ['"'])) ++ cs) false [] currentRow rows = _
    rw [List.cons_append, List.append_assoc, List.singleton_append,
      parseLoop_open_quote, parseLoop_quoted_run ',' f.data cs [] currentRow rows h]
    simp
  · rw [if_neg hsp]
    have hne : ∀ c ∈ f.data, c ≠ '"' ∧ c ≠ ',' ∧ c ≠ '\n' ∧ c ≠ '\r' := by
      intro c hc
      refine ⟨?_, ?_, ?_, ?_⟩ <;> (intro he; subst he; exact hsp (by simp [hc]))
    rw [parseLoop_plain_run ',' f.data hne cs [] currentRow rows]
    simp

theorem joinStrings_data_cons (sep x : String) (xs : List String) (h : xs ≠ []) :
    (joinStrings sep (x :: xs)).data = x.data ++ sep.data ++ (joinStrings sep xs).data := by
  rw [joinStrings_cons sep x xs h, String.data_append, String.data_append]

theorem parseLoop_line_newline (fields : List (String × List Char))
    (hne : fields ≠ [])
    (hsc : ∀ p ∈ fields, ScansTo p.1 p.2) :
    ∀ (cs : List Char) (acc : List (List Char)) (rows : List (List (List Char))),
      parseLoop ',' ((joinStrings "," (fields.map Prod.fst)).data ++ '\n' :: cs)
          false [] acc rows =
        parseLoop ',' cs false [] [] (rows ++ [acc ++ fields.map Prod.snd]) := by
  induction fields with
  | nil => exact absurd rfl hne
  | cons p fields' ih =>
    intro cs acc rows
    cases fields' with
    | nil =>
      have h1 : (joinStrings "," ([p].map Prod.fst)) = p.1 := rfl
      rw [h1, hsc p (List.mem_cons_self _ _) ('\n' :: cs) acc rows
          (head_cons_ne_quote '\n' cs (by decide)),
        parseLoop_newline ',' cs p.2 acc rows (by decide)]
      simp
    | cons q fields'' =>
      rw [List.map_cons,
        joinStrings_data_cons "," p.1 (List.map Prod.fst (q :: fields'')) (by simp),
        comma_data, List.append_assoc, List.append_assoc, List.singleton_append,
        hsc p (List.mem_cons_self _ _) _ acc rows (head_cons_ne_quote ',' _ (by decide)),
        parseLoop_delim_char ',' _ p.2 acc rows (by decide),
        ih (by simp) (fun r hr => hsc r (List.mem_cons_of_mem _ hr)) cs (acc ++ [p.2]) rows]
      simp

theorem parseLoop_line_end (fields : List (String × List Char))
    (hne : fields ≠ [])
    (hsc : ∀ p ∈ fields, ScansTo p.1 p.2) :
    ∀ (acc : List (List Char)) (rows : List (List (List Char))),
      parseLoop ',' (joinStrings "," (fields.map Prod.fst)).data false [] acc rows =
        rows ++ [acc ++ fields.map Prod.snd] := by
  induction fields with
  | nil => exact absurd rfl hne
  | cons p fields' ih =>
    intro acc rows
    cases fields' with
    | nil =>
      have h1 : (joinStrings "," ([p].map Prod.fst)) = p.1 := rfl
      have h2 := hsc p (List.mem_cons_self _ _) [] acc rows (by decide)
      rw [List.append_nil] at h2
      rw [h1, h2, parseLoop_nil]
      simp
    | cons q fields'' =>
      rw [List.map_cons,
        joinStrings_data_cons "," p.1 (List.map Prod.fst (q :: fields'')) (by simp),
        comma_data, List.append_assoc, List.singleton_append,
        hsc p (List.mem_cons_self _ _) _ acc rows (head_cons_ne_quote ',' _ (by decide)),
        parseLoop_delim_char ',' _ p.2 acc rows (by decide),
        ih (by simp) (fun r hr => hsc r (List.mem_cons_of_mem _ hr)) (acc ++ [p.2]) rows]
      simp

theorem parseLoop_text (lines : List (List (String × List Char)))
    (hne : lines ≠ []) (hlne : ∀ l ∈ lines, l ≠ [])
    (hsc : ∀ l ∈ lines, ∀ p ∈ l, ScansTo p.1 p.2) :
    ∀ rows : List (List (List Char)),
      parseLoop ','
          (joinStrings "\n" (lines.map (fun l => joinStrings "," (l.map Prod.fst)))).data
          false [] [] rows =
        rows ++ lines.map (fun l => l.map Prod.snd) := by
  induction lines with
  | nil => exact absurd rfl hne
  | cons l lines' ih =>
    intro rows
    cases lines' with
    | nil =>
      have h1 : joinStrings "\n" ([l].map (fun x => joinStrings "," (x.map Prod.fst)))
          = joinStrings "," (l.map Prod.fst) := rfl
      rw [h1, parseLoop_line_end l (hlne l (List.mem_cons_self _ _))
        (hsc l (List.mem_cons_self _ _)) [] rows]
      simp
    | cons l2 lines'' =>
      rw [List.map_cons,
        joinStrings_data_cons "\n" _ _ (by simp),
        lf_data, List.append_assoc, List.singleton_append,
        parseLoop_line_newline l (hlne l (List.mem_cons_self _ _))
          (hsc l (List.mem_cons_self _ _)) _ [] rows,
        ih (by simp) (fun x hx => hlne x (List.mem_cons_of_mem _ hx))
          (fun x hx => hsc x (List.mem_cons_of_mem _ hx)) (rows ++ [[] ++ l.map Prod.snd])]
      simp

/-! ## Decimal numerals: rendering and parsing are inverse -/

theorem digitChar_isDigit (d : ℕ) (h : d < 10) : (digitChar d).isDigit = true := by
  interval_cases d <;> decide

theorem digitVal_digitChar (d : ℕ) (h : d < 10) : digitVal (digitChar d) = d := by
  interval_cases d <;> decide

theorem digitChar_not_ws (d : ℕ) (h : d < 10) : isJsWhitespace (digitChar d) = false := by
  interval_cases d <;> decide

theorem digitChar_not_special (d : ℕ) (h : d < 10) :
    digitChar d ≠ '"' ∧ digitChar d ≠ ',' ∧ digitChar d ≠ '\n' ∧ digitChar d ≠ '\r' := by
  interval_cases d <;> decide

theorem digitChar_ne_minus (d : ℕ) (h : d < 10) : digitChar d ≠ '-' := by
  interval_cases d <;> decide

theorem digitChar_eq_zero_iff (d : ℕ) (h : d < 10) : digitChar d = '0' ↔ d = 0 := by
  interval_cases d <;> simp <;> decide

theorem natToDecimalAux_mem : ∀ (fuel n : ℕ), n < fuel →
    ∀ c ∈ natToDecimalAux fuel n, ∃ d, d < 10 ∧ c = digitChar d := by
  intro fuel
  induction fuel with
  | zero => intro n hn; omega
  | succ fuel ih =>
    intro n hn c hc
    by_cases h10 : n < 10
    · rw [natToDecimalAux, if_pos h10] at hc
      simp only [List.mem_singleton] at hc
      exact ⟨n, h10, hc⟩
    · rw [natToDecimalAux, if_neg h10] at hc
      rcases List.mem_append.mp hc with h | h
      · have hlt : n / 10 < fuel := by omega
        exact ih (n / 10) hlt c h
      · simp only [List.mem_singleton] at h
        exact ⟨n % 10, Nat.mod_lt n (by omega), h⟩

theorem natToDecimalAux_ne_nil : ∀ (fuel n : ℕ), n < fuel →
    natToDecimalAux fuel n ≠ [] := by
  intro fuel
  induction fuel with
  | zero => intro n hn; omega
  | succ fuel _ =>
    intro n _
    by_cases h10 : n < 10
    · rw [natToDecimalAux, if_pos h10]; simp
    · rw [natToDecimalAux, if_neg h10]; simp

theorem digitsVal_concat (l : List Char) (c : Char) :
    digitsVal (l ++ [c]) = 10 * digitsVal l + digitVal c := by
  unfold digitsVal
  rw [List.foldl_append]
  rfl

theorem digitsVal_natToDecimalAux : ∀ (fuel n : ℕ), n < fuel →
    digitsVal (natToDecimalAux fuel n) = n := by
  intro fuel
  induction fuel with
  | zero => intro n hn; omega
  | succ fuel ih =>
    intro n hn
    by_cases h10 : n < 10
    · rw [natToDecimalAux, if_pos h10]
      show 10 * 0 + digitVal (digitChar n) = n
      rw [digitVal_digitChar n h10]
      omega
    · rw [natToDecimalAux, if_neg h10, digitsVal_concat]
      have hlt : n / 10 < fuel := by omega
      rw [ih (n / 10) hlt, digitVal_digitChar (n % 10) (Nat.mod_lt n (by omega))]
      omega

theorem natToDecimalAux_head : ∀ (fuel n : ℕ), n < fuel → n ≠ 0 →
    ∃ d, d ≠ 0 ∧ d < 10 ∧ (natToDecimalAux fuel n).head? = some (digitChar d) := by
  intro fuel
  induction fuel with
  | zero => intro n hn; omega
  | succ fuel ih =>
    intro n hn hne
    by_cases h10 : n < 10
    · rw [natToDecimalAux, if_pos h10]
      exact ⟨n, hne, h10, rfl⟩
    · rw [natToDecimalAux, if_neg h10]
      have hlt : n / 10 < fuel := by omega
      have hne' : n / 10 ≠ 0 := by omega
      obtain ⟨d, hd0, hd10, hd⟩ := ih (n / 10) hlt hne'
      refine ⟨d, hd0, hd10, ?_⟩
      rw [List.head?_append_of_ne_nil _ (natToDecimalAux_ne_nil fuel (n / 10) hlt)]
      exact hd

theorem natToDecimal_mem (n : ℕ) :
    ∀ c ∈ natToDecimal n, ∃ d, d < 10 ∧ c = digitChar d :=
  natToDecimalAux_mem (n + 1) n (Nat.lt_succ_self n)

theorem natToDecimal_ne_nil (n : ℕ) : natToDecimal n ≠ [] :=
  natToDecimalAux_ne_nil (n + 1) n (Nat.lt_succ_self n)

theorem digitsVal_natToDecimal (n : ℕ) : digitsVal (natToDecimal n) = n :=
  digitsVal_natToDecimalAux (n + 1) n (Nat.lt_succ_self n)

theorem natToDecimal_head (n : ℕ) (hne : n ≠ 0) :
    ∃ d, d ≠ 0 ∧ d < 10 ∧ (natToDecimal n).head? = some (digitChar d) :=
  natToDecimalAux_head (n + 1) n (Nat.lt_succ_self n) hne

theorem natToDecimal_zero : natToDecimal 0 = ['0'] := rfl

theorem natToDecimal_isDigit (n : ℕ) : ∀ c ∈ natToDecimal n, c.isDigit = true := by
  intro c hc
  obtain ⟨d, hd10, rfl⟩ := natToDecimal_mem n c hc
  exact digitChar_isDigit d hd10

theorem digitsVal_foldl_shift (l : List Char) :
    ∀ s : ℕ, l.foldl (fun a c => 10 * a + digitVal c) s =
      s * 10 ^ l.length + digitsVal l := by
  induction l with
  | nil => intro s; simp [digitsVal]
  | cons c l' ih =>
    intro s
    show l'.foldl _ (10 * s + digitVal c) = _
    rw [ih (10 * s + digitVal c)]
    have hv : digitsVal (c :: l') = digitVal c * 10 ^ l'.length + digitsVal l' := by
      show l'.foldl _ (10 * 0 + digitVal c) = _
      rw [ih (10 * 0 + digitVal c)]
      ring_nf
    rw [hv, List.length_cons]
    ring

theorem digitsVal_append (a b : List Char) :
    digitsVal (a ++ b) = digitsVal a * 10 ^ b.length + digitsVal b := by
  unfold digitsVal
  rw [List.foldl_append, digitsVal_foldl_shift]
  rfl

theorem digitsVal_replicate_zero (m : ℕ) :
    digitsVal (List.replicate m '0') = 0 := by
  induction m with
  | zero => rfl
  | succ m ih =>
    rw [List.replicate_succ]
    show (List.replicate m '0').foldl _ (10 * 0 + digitVal '0') = 0
    have : (10 * 0 + digitVal '0') = 0 := by decide
    rw [this]
    exact ih

theorem takeWhile_eq_self_of_all (p : Char → Bool) (l : List Char)
    (h : ∀ c ∈ l, p c = true) : l.takeWhile p = l := by
  induction l with
  | nil => rfl
  | cons c l' ih =>
    rw [List.takeWhile_cons_of_pos (h c (List.mem_cons_self _ _))]
    rw [ih (fun x hx => h x (List.mem_cons_of_mem _ hx))]

theorem dropWhile_eq_nil_of_all (p : Char → Bool) (l : List Char)
    (h : ∀ c ∈ l, p c = true) : l.dropWhile p = [] := by
  induction l with
  | nil => rfl
  | cons c l' ih =>
    rw [List.dropWhile_cons_of_pos (h c (List.mem_cons_self _ _))]
    exact ih (fun x hx => h x (List.mem_cons_of_mem _ hx))

theorem takeWhile_append_of_all (p : Char → Bool) (a : List Char) (b : Char)
    (r : List Char) (ha : ∀ c ∈ a, p c = true) (hb : p b = false) :
    (a ++ b :: r).takeWhile p = a := by
  induction a with
  | nil =>
    simp only [List.nil_append]
    rw [List.takeWhile_cons_of_neg (by simp [hb])]
  | cons c a' ih =>
    rw [List.cons_append,
      List.takeWhile_cons_of_pos (ha c (List.mem_cons_self _ _)),
      ih (fun x hx => ha x (List.mem_cons_of_mem _ hx))]

theorem dropWhile_append_of_all (p : Char → Bool) (a : List Char) (b : Char)
    (r : List Char) (ha : ∀ c ∈ a, p c = true) (hb : p b = false) :
    (a ++ b :: r).dropWhile p = b :: r := by
  induction a with
  | nil =>
    simp only [List.nil_append]
    rw [List.dropWhile_cons_of_neg (by simp [hb])]
  | cons c a' ih =>
    rw [List.cons_append,
      List.dropWhile_cons_of_pos (ha c (List.mem_cons_self _ _))]
    exact ih (fun x hx => ha x (List.mem_cons_of_mem _ hx))

theorem head?_take (l : List Char) (n : ℕ) (hn : n ≠ 0) :
    (l.take n).head? = l.head? := by
  cases l with
  | nil => simp
  | cons c t =>
    obtain ⟨n', rfl⟩ := Nat.exists_eq_succ_of_ne_zero hn
    simp [List.take_succ_cons]

/-- Shape of the fractional rendering `decimalOfDigits m k` for `k ≠ 0`: an
integer digit block, a point, and exactly `k` fraction digits, whose combined
value is `m`; the integer block is `"0"` or starts with a nonzero digit. -/
theorem decimalOfDigits_shape (m k : ℕ) (hk : k ≠ 0) :
    ∃ T D : List Char,
      decimalOfDigits m k = T ++ '.' :: D ∧
      T ≠ [] ∧
      (∀ c ∈ T, ∃ d, d < 10 ∧ c = digitChar d) ∧
      (∀ c ∈ D, ∃ d, d < 10 ∧ c = digitChar d) ∧
      D.length = k ∧
      digitsVal T * 10 ^ k + digitsVal D = m ∧
      (T = ['0'] ∨ ∃ d, d ≠ 0 ∧ d < 10 ∧ T.head? = some (digitChar d)) := by
  unfold decimalOfDigits
  rw [if_neg hk]
  set ds := natToDecimal m with hds
  set padded := List.replicate (k + 1 - ds.length) '0' ++ ds with hpadded
  have hlen : padded.length = (k + 1 - ds.length) + ds.length := by
    simp [hpadded]
  have hdsnil : ds ≠ [] := natToDecimal_ne_nil m
  have hdslen : 1 ≤ ds.length := by
    cases hds' : ds with
    | nil => exact absurd hds' hdsnil
    | cons c t => simp
  refine ⟨padded.take (padded.length - k), padded.drop (padded.length - k),
    rfl, ?_, ?_, ?_, ?_, ?_, ?_⟩
  · have : (padded.take (padded.length - k)).length = padded.length - k := by
      rw [List.length_take]
      omega
    intro hnil
    rw [hnil] at this
    simp at this
    omega
  · intro c hc
    have hc' : c ∈ padded := List.take_subset _ _ hc
    rcases List.mem_append.mp hc' with h | h
    · exact ⟨0, by omega, (List.eq_of_mem_replicate h)⟩
    · exact natToDecimal_mem m c h
  · intro c hc
    have hc' : c ∈ padded := List.drop_subset _ _ hc
    rcases List.mem_append.mp hc' with h | h
    · exact ⟨0, by omega, (List.eq_of_mem_replicate h)⟩
    · exact natToDecimal_mem m c h
  · rw [List.length_drop]
    omega
  · have hsplit : padded.take (padded.length - k) ++ padded.drop (padded.length - k)
        = padded := List.take_append_drop _ _
    have hdlen : (padded.drop (padded.length - k)).length = k := by
      rw [List.length_drop]; omega
    have hval : digitsVal padded = m := by
      rw [hpadded, digitsVal_append, digitsVal_replicate_zero, hds,
        digitsVal_natToDecimal]
      ring_nf
    calc digitsVal (padded.take (padded.length - k)) * 10 ^ k +
          digitsVal (padded.drop (padded.length - k))
        = digitsVal (padded.take (padded.length - k)) *
            10 ^ (padded.drop (padded.length - k)).length +
            digitsVal (padded.drop (padded.length - k)) := by rw [hdlen]
      _ = digitsVal (padded.take (padded.length - k) ++
            padded.drop (padded.length - k)) := (digitsVal_append _ _).symm
      _ = m := by rw [hsplit, hval]
  · by_cases hcase : ds.length ≤ k
    · left
      have hrep : k + 1 - ds.length = (k - ds.length) + 1 := by omega
      have hpadded' : padded = '0' :: (List.replicate (k - ds.length) '0' ++ ds) := by
        rw [hpadded, hrep, List.replicate_succ, List.cons_append]
      have hlen' : padded.length - k = 1 := by omega
      rw [hlen', hpadded']
      rfl
    · right
      have hm0 : m ≠ 0 := by
        intro h0
        rw [h0] at hds
        have : ds.length = 1 := by rw [hds, natToDecimal_zero]; rfl
        omega
      obtain ⟨d, hd0, hd10, hdhead⟩ := natToDecimal_head m hm0
      refine ⟨d, hd0, hd10, ?_⟩
      rw [head?_take _ _ (by omega)]
      have hpz : k + 1 - ds.length = 0 := by omega
      rw [hpadded, hpz, List.replicate_zero, List.nil_append, hds]
      exact hdhead

theorem data_mk (l : List Char) : (String.mk l).data = l := rfl

theorem natToDecimal_head_ne_minus (m : ℕ) :
    (natToDecimal m).head? ≠ some '-' := by
  by_cases hm : m = 0
  · subst hm; decide
  · obtain ⟨d, _, hd10, hdhead⟩ := natToDecimal_head m hm
    rw [hdhead]
    simpa using digitChar_ne_minus d hd10

theorem strToRat_decimal (m k : ℕ) :
    strToRat (String.mk (decimalOfDigits m k)) = (m : ℚ) / 10 ^ k := by
  by_cases hk : k = 0
  · subst hk
    have hd0 : decimalOfDigits m 0 = natToDecimal m := by
      unfold decimalOfDigits; rw [if_pos rfl]
    unfold strToRat
    simp only [data_mk, hd0, if_neg (natToDecimal_head_ne_minus m)]
    rw [takeWhile_eq_self_of_all Char.isDigit _ (natToDecimal_isDigit m),
      dropWhile_eq_nil_of_all Char.isDigit _ (natToDecimal_isDigit m)]
    rw [digitsVal_natToDecimal]
    norm_num [digitsVal]
  · obtain ⟨T, D, hTD, hTnil, hTmem, hDmem, hDlen, hval, _⟩ :=
      decimalOfDigits_shape m k hk
    have hTdig : ∀ c ∈ T, c.isDigit = true := by
      intro c hc
      obtain ⟨d, hd10, rfl⟩ := hTmem c hc
      exact digitChar_isDigit d hd10
    have hDdig : ∀ c ∈ D, c.isDigit = true := by
      intro c hc
      obtain ⟨d, hd10, rfl⟩ := hDmem c hc
      exact digitChar_isDigit d hd10
    have hhead : (T ++ '.' :: D).head? ≠ some '-' := by
      cases T with
      | nil => exact absurd rfl hTnil
      | cons c T' =>
        obtain ⟨d, hd10, rfl⟩ := hTmem c (List.mem_cons_self _ _)
        simpa using digitChar_ne_minus d hd10
    unfold strToRat
    simp only [data_mk, hTD, if_neg hhead]
    rw [takeWhile_append_of_all Char.isDigit T '.' D hTdig (by decide),
      dropWhile_append_of_all Char.isDigit T '.' D hTdig (by decide)]
    simp only [List.head?_cons, Option.some.injEq, eq_self_iff_true, if_true,
      List.tail_cons]
    rw [takeWhile_eq_self_of_all Char.isDigit D hDdig,
      dropWhile_eq_nil_of_all Char.isDigit D hDdig]
    simp only [List.head?_nil, reduceCtorEq, or_self, if_false, hDlen, zpow_zero,
      mul_one]
    have h10 : (10 : ℚ) ^ k ≠ 0 := by positivity
    field_simp
    rw [← hval]
    push_cast
    ring

/-! ## Properties of `numToString` on terminating rationals -/

theorem den_dvd_ten_pow (q : ℚ) (h : terminatingDen q.den) :
    q.den ∣ 10 ^ max (factorCount 2 q.den) (factorCount 5 q.den) := by
  unfold terminatingDen at h
  calc q.den = 2 ^ factorCount 2 q.den * 5 ^ factorCount 5 q.den := h
    _ ∣ 2 ^ max (factorCount 2 q.den) (factorCount 5 q.den) *
        5 ^ max (factorCount 2 q.den) (factorCount 5 q.den) :=
      mul_dvd_mul (pow_dvd_pow 2 (le_max_left _ _)) (pow_dvd_pow 5 (le_max_right _ _))
    _ = 10 ^ max (factorCount 2 q.den) (factorCount 5 q.den) := by
      rw [← mul_pow]
      norm_num

theorem numToString_terminating (q : ℚ) (h : terminatingDen q.den) :
    numToString q = String.mk ((if q < 0 then ['-'] else []) ++
      decimalOfDigits
        (q.num.natAbs * 10 ^ max (factorCount 2 q.den) (factorCount 5 q.den) / q.den)
        (max (factorCount 2 q.den) (factorCount 5 q.den))) := by
  unfold terminatingDen at h
  unfold numToString
  rw [if_pos h]

theorem decimalOfDigits_head (m k : ℕ) :
    ∃ c, (decimalOfDigits m k).head? = some c ∧
      (c = '0' ∨ ∃ d, d ≠ 0 ∧ d < 10 ∧ c = digitChar d) := by
  by_cases hk : k = 0
  · subst hk
    have hd0 : decimalOfDigits m 0 = natToDecimal m := by
      unfold decimalOfDigits; rw [if_pos rfl]
    rw [hd0]
    by_cases hm : m = 0
    · subst hm; exact ⟨'0', rfl, Or.inl rfl⟩
    · obtain ⟨d, hd0', hd10, hdhead⟩ := natToDecimal_head m hm
      exact ⟨digitChar d, hdhead, Or.inr ⟨d, hd0', hd10, rfl⟩⟩
  · obtain ⟨T, D, hTD, hTnil, hTmem, _, _, _, hTalt⟩ := decimalOfDigits_shape m k hk
    rw [hTD]
    rcases hTalt with h0 | ⟨d, hd0', hd10, hdh⟩
    · subst h0
      exact ⟨'0', rfl, Or.inl rfl⟩
    · cases T with
      | nil => exact absurd rfl hTnil
      | cons c T' =>
        simp only [List.head?_cons, Option.some.injEq] at hdh
        exact ⟨c, by simp, Or.inr ⟨d, hd0', hd10, hdh⟩⟩

theorem decimalOfDigits_head_ne_minus (m k : ℕ) :
    (decimalOfDigits m k).head? ≠ some '-' := by
  obtain ⟨c, hc, halt⟩ := decimalOfDigits_head m k
  rw [hc]
  rcases halt with rfl | ⟨d, _, hd10, rfl⟩
  · decide
  · simpa using digitChar_ne_minus d hd10

theorem decimalOfDigits_mem (m k : ℕ) :
    ∀ c ∈ decimalOfDigits m k, c = '.' ∨ ∃ d, d < 10 ∧ c = digitChar d := by
  by_cases hk : k = 0
  · subst hk
    have hd0 : decimalOfDigits m 0 = natToDecimal m := by
      unfold decimalOfDigits; rw [if_pos rfl]
    rw [hd0]
    intro c hc
    exact Or.inr (natToDecimal_mem m c hc)
  · obtain ⟨T, D, hTD, _, hTmem, hDmem, _, _, _⟩ := decimalOfDigits_shape m k hk
    rw [hTD]
    intro c hc
    rcases List.mem_append.mp hc with h | h
    · exact Or.inr (hTmem c h)
    · rcases List.mem_cons.mp h with rfl | h'
      · exact Or.inl rfl
      · exact Or.inr (hDmem c h')

theorem numToString_mem (q : ℚ) (h : terminatingDen q.den) :
    ∀ c ∈ (numToString q).data,
      c = '-' ∨ c = '.' ∨ ∃ d, d < 10 ∧ c = digitChar d := by
  rw [numToString_terminating q h]
  intro c hc
  simp only [data_mk] at hc
  rcases List.mem_append.mp hc with hs | hd
  · left
    by_cases hneg : q < 0
    · rw [if_pos hneg] at hs; simpa using hs
    · rw [if_neg hneg] at hs; simp at hs
  · rcases decimalOfDigits_mem _ _ c hd with h' | h'
    · exact Or.inr (Or.inl h')
    · exact Or.inr (Or.inr h')

theorem numToString_not_ws (q : ℚ) (h : terminatingDen q.den) :
    ∀ c ∈ (numToString q).data, isJsWhitespace c = false := by
  intro c hc
  rcases numToString_mem q h c hc with rfl | rfl | ⟨d, hd10, rfl⟩
  · decide
  · decide
  · exact digitChar_not_ws d hd10

theorem numToString_not_special (q : ℚ) (h : terminatingDen q.den) :
    ∀ c ∈ (numToString q).data,
      c ≠ '"' ∧ c ≠ ',' ∧ c ≠ '\n' ∧ c ≠ '\r' := by
  intro c hc
  rcases numToString_mem q h c hc with rfl | rfl | ⟨d, hd10, rfl⟩
  · decide
  · decide
  · exact digitChar_not_special d hd10

theorem trimChars_eq_self (l : List Char)
    (h : ∀ c ∈ l, isJsWhitespace c = false) : trimChars l = l := by
  unfold trimChars
  have h1 : l.dropWhile isJsWhitespace = l := by
    cases l with
    | nil => rfl
    | cons c cs =>
      rw [List.dropWhile_cons_of_neg (by simp [h c (List.mem_cons_self _ _)])]
  rw [h1]
  have h2 : l.reverse.dropWhile isJsWhitespace = l.reverse := by
    cases hrev : l.reverse with
    | nil => rfl
    | cons c cs =>
      have hc : c ∈ l := by
        rw [← List.mem_reverse, hrev]
        exact List.mem_cons_self _ _
      rw [List.dropWhile_cons_of_neg (by simp [h c hc])]
  rw [h2, List.reverse_reverse]

theorem jsTrim_eq_self (s : String) (h : ∀ c ∈ s.data, isJsWhitespace c = false) :
    jsTrim s = s := by
  unfold jsTrim
  rw [trimChars_eq_self s.data h]

theorem jsTrim_numToString (q : ℚ) (h : terminatingDen q.den) :
    jsTrim (numToString q) = numToString q :=
  jsTrim_eq_self _ (numToString_not_ws q h)

theorem strToRat_cons_minus (body : List Char) (h : body.head? ≠ some '-') :
    strToRat (String.mk ('-' :: body)) = -strToRat (String.mk body) := by
  unfold strToRat
  simp only [data_mk, List.head?_cons, List.tail_cons, Option.some.injEq,
    eq_self_iff_true, if_true, if_neg h]

theorem strToRat_numToString (q : ℚ) (h : terminatingDen q.den) :
    strToRat (numToString q) = q := by
  have hdvd : q.den ∣ q.num.natAbs * 10 ^ max (factorCount 2 q.den) (factorCount 5 q.den) :=
    Dvd.dvd.mul_left (den_dvd_ten_pow q h) _
  have hden0 : (q.den : ℚ) ≠ 0 := by
    exact_mod_cast q.den_nz
  have hp0 : (10 : ℚ) ^ max (factorCount 2 q.den) (factorCount 5 q.den) ≠ 0 := by
    positivity
  have hval : ((q.num.natAbs * 10 ^ max (factorCount 2 q.den) (factorCount 5 q.den) /
        q.den : ℕ) : ℚ) /
        10 ^ max (factorCount 2 q.den) (factorCount 5 q.den) =
      (q.num.natAbs : ℚ) / q.den := by
    rw [Nat.cast_div hdvd hden0]
    push_cast
    field_simp
    ring
  rw [numToString_terminating q h]
  by_cases hneg : q < 0
  · rw [if_pos hneg, List.singleton_append,
      strToRat_cons_minus _ (decimalOfDigits_head_ne_minus _ _),
      strToRat_decimal, hval]
    have hq : (q.num : ℚ) < 0 := by
      exact_mod_cast Rat.num_neg.mpr hneg
    have : (q.num.natAbs : ℚ) = -(q.num : ℚ) := by
      rw [Int.cast_natAbs, Int.cast_abs]
      exact abs_of_neg hq
    rw [this, neg_div, neg_neg, Rat.num_div_den]
  · rw [if_neg hneg, List.nil_append, strToRat_decimal, hval]
    have hq : (0 : ℚ) ≤ (q.num : ℚ) := by
      exact_mod_cast Rat.num_nonneg.mpr (le_of_not_lt hneg)
    have : (q.num.natAbs : ℚ) = (q.num : ℚ) := by
      rw [Int.cast_natAbs, Int.cast_abs]
      exact abs_of_nonneg hq
    rw [this, Rat.num_div_den]

theorem numToString_head (q : ℚ) (h : terminatingDen q.den) :
    ∃ c, (numToString q).data.head? = some c ∧
      (c = '-' ∨ c = '0' ∨ ∃ d, d ≠ 0 ∧ d < 10 ∧ c = digitChar d) := by
  rw [numToString_terminating q h]
  simp only [data_mk]
  by_cases hneg : q < 0
  · rw [if_pos hneg, List.singleton_append]
    exact ⟨'-', rfl, Or.inl rfl⟩
  · rw [if_neg hneg, List.nil_append]
    obtain ⟨c, hc, halt⟩ := decimalOfDigits_head
      (q.num.natAbs * 10 ^ max (factorCount 2 q.den) (factorCount 5 q.den) / q.den)
      (max (factorCount 2 q.den) (factorCount 5 q.den))
    exact ⟨c, hc, Or.inr halt⟩

theorem numToString_ne_literals (q : ℚ) (h : terminatingDen q.den) :
    (numToString q == "") = false ∧ (numToString q == "null") = false ∧
    (numToString q == "NULL") = false := by
  obtain ⟨c, hc, halt⟩ := numToString_head q h
  have hcn : c ≠ 'n' ∧ c ≠ 'N' := by
    rcases halt with rfl | rfl | ⟨d, _, hd10, rfl⟩
    · exact ⟨by decide, by decide⟩
    · exact ⟨by decide, by decide⟩
    · have hdig := digitChar_isDigit d hd10
      constructor
      · intro he; rw [he] at hdig; exact absurd hdig (by decide)
      · intro he; rw [he] at hdig; exact absurd hdig (by decide)
  refine ⟨beq_eq_false_iff_ne.mpr ?_, beq_eq_false_iff_ne.mpr ?_,
    beq_eq_false_iff_ne.mpr ?_⟩
  · intro he; rw [he] at hc; simp at hc
  · intro he
    rw [he] at hc
    have h2 : ("null").data.head? = some 'n' := rfl
    rw [h2] at hc
    exact hcn.1 (Option.some.inj hc).symm
  · intro he
    rw [he] at hc
    have h2 : ("NULL").data.head? = some 'N' := rfl
    rw [h2] at hc
    exact hcn.2 (Option.some.inj hc).symm

theorem decimalOfDigits_ne_nil (m k : ℕ) : decimalOfDigits m k ≠ [] := by
  obtain ⟨c, hc, _⟩ := decimalOfDigits_head m k
  intro hnil
  rw [hnil] at hc
  simp at hc

theorem patternTest_core (m k : ℕ) :
    (!((decimalOfDigits m k).takeWhile Char.isDigit).isEmpty &&
      (if ((decimalOfDigits m k).dropWhile Char.isDigit).head? = some '.' then
        !(((decimalOfDigits m k).dropWhile Char.isDigit).tail.takeWhile
            Char.isDigit).isEmpty &&
          expTail (((decimalOfDigits m k).dropWhile Char.isDigit).tail.dropWhile
            Char.isDigit)
      else expTail ((decimalOfDigits m k).dropWhile Char.isDigit))) = true := by
  by_cases hk : k = 0
  · subst hk
    have hd0 : decimalOfDigits m 0 = natToDecimal m := by
      unfold decimalOfDigits; rw [if_pos rfl]
    rw [hd0, takeWhile_eq_self_of_all Char.isDigit _ (natToDecimal_isDigit m),
      dropWhile_eq_nil_of_all Char.isDigit _ (natToDecimal_isDigit m)]
    simp [natToDecimal_ne_nil m, expTail]
  · obtain ⟨T, D, hTD, hTnil, hTmem, hDmem, hDlen, _, _⟩ := decimalOfDigits_shape m k hk
    have hTdig : ∀ c ∈ T, c.isDigit = true := by
      intro c hc
      obtain ⟨d, hd10, rfl⟩ := hTmem c hc
      exact digitChar_isDigit d hd10
    have hDdig : ∀ c ∈ D, c.isDigit = true := by
      intro c hc
      obtain ⟨d, hd10, rfl⟩ := hDmem c hc
      exact digitChar_isDigit d hd10
    have hDnil : D ≠ [] := by
      intro hnil
      rw [hnil] at hDlen
      exact hk hDlen.symm
    rw [hTD, takeWhile_append_of_all Char.isDigit T '.' D hTdig (by decide),
      dropWhile_append_of_all Char.isDigit T '.' D hTdig (by decide)]
    simp only [List.head?_cons, Option.some.injEq, eq_self_iff_true, if_true,
      List.tail_cons]
    rw [takeWhile_eq_self_of_all Char.isDigit D hDdig,
      dropWhile_eq_nil_of_all Char.isDigit D hDdig]
    simp [hTnil, hDnil, expTail]

theorem numberPatternTest_numToString (q : ℚ) (h : terminatingDen q.den) :
    numberPatternTest (numToString q) = true := by
  rw [numToString_terminating q h]
  unfold numberPatternTest
  simp only [data_mk]
  by_cases hneg : q < 0
  · rw [if_pos hneg, List.singleton_append]
    simp only [List.head?_cons, Option.some.injEq, eq_self_iff_true, if_true,
      List.tail_cons]
    exact patternTest_core _ _
  · rw [if_neg hneg, List.nil_append,
      if_neg (decimalOfDigits_head_ne_minus _ _)]
    exact patternTest_core _ _

theorem leadingZeros_core (m k : ℕ) :
    (!((decimalOfDigits m k).takeWhile (· == '0')).isEmpty &&
      (match ((decimalOfDigits m k).dropWhile (· == '0')).head? with
      | some c => decide ('1' ≤ c ∧ c ≤ '9')
      | none => false)) = false := by
  by_cases hk : k = 0
  · subst hk
    have hd0 : decimalOfDigits m 0 = natToDecimal m := by
      unfold decimalOfDigits; rw [if_pos rfl]
    by_cases hm : m = 0
    · subst hm
      rw [hd0, natToDecimal_zero]
      decide
    · obtain ⟨d, hd0', hd10, hdhead⟩ := natToDecimal_head m hm
      obtain ⟨c₀, rest, hcons⟩ : ∃ c₀ rest, natToDecimal m = c₀ :: rest := by
        cases hc : natToDecimal m with
        | nil => exact absurd hc (natToDecimal_ne_nil m)
        | cons x xs => exact ⟨x, xs, rfl⟩
      rw [hcons] at hdhead
      simp only [List.head?_cons, Option.some.injEq] at hdhead
      subst hdhead
      have hne0 : (digitChar d == '0') = false := by
        refine beq_eq_false_iff_ne.mpr ?_
        intro he
        exact hd0' ((digitChar_eq_zero_iff d hd10).mp he)
      rw [hd0, hcons, List.takeWhile_cons_of_neg (by simp [hne0])]
      simp
  · obtain ⟨T, D, hTD, hTnil, hTmem, _, _, _, hTalt⟩ := decimalOfDigits_shape m k hk
    rcases hTalt with h0 | ⟨d, hd0', hd10, hdh⟩
    · subst h0
      rw [hTD, List.singleton_append]
      rw [List.takeWhile_cons_of_pos (by decide),
        List.takeWhile_cons_of_neg (by decide),
        List.dropWhile_cons_of_pos (by decide),
        List.dropWhile_cons_of_neg (by decide)]
      simp
    · obtain ⟨c₀, T', hcons⟩ : ∃ c₀ T', T = c₀ :: T' := by
        cases hc : T with
        | nil => exact absurd hc hTnil
        | cons x xs => exact ⟨x, xs, rfl⟩
      rw [hcons] at hdh
      simp only [List.head?_cons, Option.some.injEq] at hdh
      subst hdh
      have hne0 : (digitChar d == '0') = false := by
        refine beq_eq_false_iff_ne.mpr ?_
        intro he
        exact hd0' ((digitChar_eq_zero_iff d hd10).mp he)
      rw [hTD, hcons, List.cons_append,
        List.takeWhile_cons_of_neg (by simp [hne0])]
      simp

theorem hasLeadingZeros_numToString (q : ℚ) (h : terminatingDen q.den) :
    hasLeadingZeros (numToString q) = false := by
  rw [numToString_terminating q h]
  unfold hasLeadingZeros
  simp only [data_mk]
  by_cases hneg : q < 0
  · rw [if_pos hneg, List.singleton_append]
    simp only [List.head?_cons, Option.some.injEq, eq_self_iff_true, if_true,
      List.tail_cons]
    exact leadingZeros_core _ _
  · rw [if_neg hneg, List.nil_append,
      if_neg (decimalOfDigits_head_ne_minus _ _)]
    exact leadingZeros_core _ _

/-- The reader's inference maps a written finite terminating number back to
itself: the numeral is its own trim, is not a null literal, matches the
numeric pattern, has no disallowed leading zero, and reparses to the exact
same rational. -/
theorem inferValue_numToString (q : ℚ) (ht : terminatingDen q.den)
    (hf : isFiniteJs q = true) :
    inferValue (numToString q) = Value.num q := by
  obtain ⟨h1, h2, h3⟩ := numToString_ne_literals q ht
  unfold inferValue
  simp only [jsTrim_numToString q ht, h1, h2, h3, Bool.or_self, Bool.or_false,
    Bool.false_or, Bool.false_eq_true, if_false]
  rw [numberPatternTest_numToString q ht, hasLeadingZeros_numToString q ht]
  simp only [Bool.not_false, Bool.and_self, if_true]
  rw [strToRat_numToString q ht, hf]
  simp

/-! ## Cells that survive the CSV round trip -/

theorem scansTo_cell (v : Value) (hok : cellOK v) :
    ScansTo (valueToCSVField v) (rawField v).data := by
  cases v with
  | null => intro cs currentRow rows _; rfl
  | undef => exact absurd hok (by simp [cellOK])
  | nan => exact absurd hok (by simp [cellOK])
  | num q =>
    show ScansTo (escapeCSVValue (numToString q) true) (numToString q).data
    rw [escapeCSVValue_numeric]
    exact scansTo_plain (numToString q) (numToString_not_special q hok.1)
  | str s => exact scansTo_escape s

theorem inferValue_rawField (v : Value) (hok : cellOK v) :
    inferValue (rawField v) = v := by
  cases v with
  | null => decide
  | undef => exact absurd hok (by simp [cellOK])
  | nan => exact absurd hok (by simp [cellOK])
  | num q => exact inferValue_numToString q hok.1 hok.2
  | str s => exact hok

theorem inferValue_of_trim_empty (value : String) (h : jsTrim value = "") :
    inferValue value = Value.null := by
  unfold inferValue
  rw [h]
  simp

theorem trim_rawField_ne_empty (v : Value) (hok : cellOK v) (hnn : v ≠ Value.null) :
    (jsTrim (rawField v) == "") = false := by
  cases v with
  | null => exact absurd rfl hnn
  | undef => exact absurd hok (by simp [cellOK])
  | nan => exact absurd hok (by simp [cellOK])
  | num q =>
    show (jsTrim (numToString q) == "") = false
    rw [jsTrim_numToString q hok.1]
    exact (numToString_ne_literals q hok.1).1
  | str s =>
    refine beq_eq_false_iff_ne.mpr ?_
    intro he
    have := inferValue_of_trim_empty s he
    rw [hok] at this
    exact Value.noConfusion this

/-! ## Reading a row object back from its column values -/

theorem rowGet_of_keys (row : Row) (hnd : (row.map Prod.fst).Nodup) :
    ∀ p ∈ row, rowGet row p.1 = p.2 := by
  induction row with
  | nil => intro p hp; simp at hp
  | cons q rest ih =>
    intro p hp
    rcases List.mem_cons.mp hp with rfl | hp'
    · unfold rowGet
      rw [List.find?_cons_of_pos _ (by simp)]
    · have hq : q.1 ≠ p.1 := by
        have h1 : q.1 ∉ rest.map Prod.fst := by
          have := hnd
          simp only [List.map_cons, List.nodup_cons] at this
          exact this.1
        intro he
        exact h1 (he ▸ List.mem_map_of_mem Prod.fst hp')
      unfold rowGet
      rw [List.find?_cons_of_neg _ (by simp [hq])]
      have := ih (by simpa using (List.nodup_cons.mp (by simpa using hnd)).2) p hp'
      unfold rowGet at this
      exact this

theorem map_rowGet (row : Row) (hnd : (row.map Prod.fst).Nodup) :
    (row.map Prod.fst).map (fun c => rowGet row c) = row.map Prod.snd := by
  rw [List.map_map]
  apply List.map_congr_left
  intro p hp
  exact rowGet_of_keys row hnd p hp

theorem zip_fst_snd (l : List (String × Value)) :
    (l.map Prod.fst).zip (l.map Prod.snd) = l := by
  induction l with
  | nil => rfl
  | cons p rest ih => simp [ih]

/-! ## Membership of characters in joined text -/

theorem mem_joinStrings (sep : String) (xs : List String) (x : String)
    (hx : x ∈ xs) (c : Char) (hc : c ∈ x.data) :
    c ∈ (joinStrings sep xs).data := by
  induction xs with
  | nil => simp at hx
  | cons y ys ih =>
    cases ys with
    | nil =>
      rcases List.mem_cons.mp hx with rfl | h
      · exact hc
      · simp at h
    | cons z zs =>
      rw [joinStrings_data_cons sep y (z :: zs) (by simp)]
      rcases List.mem_cons.mp hx with rfl | h
      · exact List.mem_append_left _ (List.mem_append_left _ hc)
      · exact List.mem_append_right _ (ih h)

theorem all_of_dropWhile_eq_nil (p : Char → Bool) (l : List Char)
    (h : l.dropWhile p = []) : ∀ c ∈ l, p c = true := by
  induction l with
  | nil => intro c hc; simp at hc
  | cons x xs ih =>
    intro c hc
    by_cases hx : p x = true
    · rw [List.dropWhile_cons_of_pos hx] at h
      rcases List.mem_cons.mp hc with rfl | h'
      · exact hx
      · exact ih h c h'
    · rw [List.dropWhile_cons_of_neg hx] at h
      simp at h

theorem trimChars_all_ws (l : List Char) (h : trimChars l = []) :
    ∀ c ∈ l, isJsWhitespace c = true := by
  unfold trimChars at h
  have h2 : ((l.dropWhile isJsWhitespace).reverse.dropWhile isJsWhitespace) = [] := by
    have := congrArg List.reverse h
    simpa using this
  have hall2 : ∀ c ∈ (l.dropWhile isJsWhitespace).reverse, isJsWhitespace c = true :=
    all_of_dropWhile_eq_nil _ _ h2
  have hall1 : ∀ c ∈ l.dropWhile isJsWhitespace, isJsWhitespace c = true := by
    intro c hc
    exact hall2 c (by simpa using hc)
  intro c hc
  rw [← List.takeWhile_append_dropWhile (p := isJsWhitespace) (l := l)] at hc
  rcases List.mem_append.mp hc with h' | h'
  · exact List.mem_takeWhile_imp h'
  · exact hall1 c h'

theorem jsTrim_text_ne_empty (text : String) (c : Char) (hc : c ∈ text.data)
    (hw : isJsWhitespace c = false) : (jsTrim text == "") = false := by
  refine beq_eq_false_iff_ne.mpr ?_
  intro he
  have hnil : trimChars text.data = [] := congrArg String.data he
  have := trimChars_all_ws text.data hnil c hc
  rw [hw] at this
  exact Bool.false_ne_true this

/-! ## Orchestration: `toCSV` as a join of lines, `fromCSV` on a clean parse -/

theorem toCSV_default_join (df : DataFrame) (hne : df.data ≠ []) :
    toCSV df ⟨none, none⟩ =
      joinStrings "\n"
        (joinStrings "," df.columns ::
          df.data.map (fun row =>
            joinStrings "," (df.columns.map (fun col => valueToCSVField (rowGet row col))))) := by
  unfold toCSV
  dsimp only [Option.getD]
  have hlen : (df.data.length == 0) = false := by
    simp [List.length_eq_zero, hne]
  rw [hlen]
  simp only [Bool.false_eq_true, if_false, if_true, escapeCSVValue_numeric,
    List.map_id', List.singleton_append]
  rfl

theorem fromCSV_default_of_parse (text : String) (cols : List String)
    (raws : List (List String))
    (hne : (text == "") = false)
    (hnw : (jsTrim text == "") = false)
    (hparse : parseCSVRows text ',' = cols :: raws)
    (hfilter : ∀ row ∈ cols :: raws,
      row.any (fun cell => !(jsTrim cell == "")) = true)
    (hcols : cols ≠ [])
    (hraws : raws ≠ []) :
    fromCSV text ⟨none, none, none⟩ = DataFrame.make (raws.map (buildRow cols)) := by
  unfold fromCSV
  dsimp only [Option.getD]
  rw [hne, hnw]
  simp only [Bool.or_self, Bool.false_eq_true, if_false, if_true]
  rw [hparse, List.filter_eq_self.mpr hfilter]
  simp only [List.isEmpty_cons, Bool.false_eq_true, if_false, if_true,
    List.headD_cons, List.drop_one, List.tail_cons]
  rw [if_neg (by simp [List.isEmpty_iff, hcols])]
  rw [if_neg (by simp [List.isEmpty_iff, hraws])]

theorem mk_data (s : String) : String.mk s.data = s := rfl

theorem trimChars_nil_of_all (l : List Char)
    (h : ∀ c ∈ l, isJsWhitespace c = true) : trimChars l = [] := by
  unfold trimChars
  rw [dropWhile_eq_nil_of_all _ _ h]
  rfl

/-- C1 amended, main statement.  For a table whose column names contain no
quote, comma or CR/LF and are not all whitespace-only, whose rows are objects
keyed exactly by the (distinct) columns, whose cells are absent, finite
terminating numbers, or strings that value inference keeps unchanged, and each
of whose rows has at least one non-absent cell, writing with default options
and reading back with default options reproduces the table exactly. -/
theorem roundtrip_core (data : List Row)
    (hwf : ∀ row ∈ data, row.map Prod.fst = (DataFrame.make data).columns)
    (hnodup : (DataFrame.make data).columns.Nodup)
    (hnames : ∀ name ∈ (DataFrame.make data).columns,
      ∀ c ∈ name.data, c ≠ '"' ∧ c ≠ ',' ∧ c ≠ '\n' ∧ c ≠ '\r')
    (hsomename : data ≠ [] →
      ∃ name ∈ (DataFrame.make data).columns, (jsTrim name == "") = false)
    (hcells : ∀ row ∈ data, ∀ p ∈ row, cellOK p.2)
    (hrows : ∀ row ∈ data, ∃ p ∈ row, p.2 ≠ Value.null) :
    fromCSV (toCSV (DataFrame.make data) ⟨none, none⟩) ⟨none, none, none⟩ =
      DataFrame.make data := by
  cases data with
  | nil => decide
  | cons r rs =>
    have hdne : (DataFrame.make (r :: rs)).data ≠ [] := by
      intro h
      exact List.cons_ne_nil r rs h
    obtain ⟨name, hnmem, hnws⟩ := hsomename (List.cons_ne_nil r rs)
    have hcolne : (DataFrame.make (r :: rs)).columns ≠ [] := by
      intro h0
      rw [h0] at hnmem
      simp at hnmem
    have hget : ∀ row ∈ r :: rs, ∀ c ∈ (DataFrame.make (r :: rs)).columns,
        ∃ p ∈ row, p.1 = c ∧ rowGet row c = p.2 := by
      intro row hrow c hc
      rw [← hwf row hrow] at hc
      obtain ⟨p, hp, hpc⟩ := List.mem_map.mp hc
      refine ⟨p, hp, hpc, ?_⟩
      rw [← hpc]
      exact rowGet_of_keys row ((hwf row hrow) ▸ hnodup) p hp
    have hcellok : ∀ row ∈ r :: rs, ∀ c ∈ (DataFrame.make (r :: rs)).columns,
        cellOK (rowGet row c) := by
      intro row hrow c hc
      obtain ⟨p, hp, _, hpv⟩ := hget row hrow c hc
      rw [hpv]
      exact hcells row hrow p hp
    -- the joined text, in rendered/raw pair form
    have h_pair_text : toCSV (DataFrame.make (r :: rs)) ⟨none, none⟩ =
        joinStrings "\n"
          ((((DataFrame.make (r :: rs)).columns.map (fun c => (c, c.data))) ::
            (r :: rs).map (fun row =>
              (DataFrame.make (r :: rs)).columns.map (fun c =>
                (valueToCSVField (rowGet row c), (rawField (rowGet row c)).data)))).map
            (fun l => joinStrings "," (l.map Prod.fst))) := by
      rw [toCSV_default_join _ hdne,
        show (DataFrame.make (r :: rs)).data = r :: rs from rfl]
      congr 1
      simp [Function.comp_def]
    -- parsing the text recovers the header fields and the raw cell fields
    have h_parse : parseCSVRows (toCSV (DataFrame.make (r :: rs)) ⟨none, none⟩) ',' =
        (DataFrame.make (r :: rs)).columns ::
          (r :: rs).map (fun row =>
            (DataFrame.make (r :: rs)).columns.map (fun c => rawField (rowGet row c))) := by
      unfold parseCSVRows
      rw [h_pair_text]
      rw [parseLoop_text _ (by simp) ?hlne ?hsc []]
      case hlne =>
        intro l hl
        rcases List.mem_cons.mp hl with rfl | hl'
        · simpa using hcolne
        · obtain ⟨row, _, rfl⟩ := List.mem_map.mp hl'
          simpa using hcolne
      case hsc =>
        intro l hl p hp
        rcases List.mem_cons.mp hl with rfl | hl'
        · obtain ⟨c, hc, rfl⟩ := List.mem_map.mp hp
          exact scansTo_plain c (hnames c hc)
        · obtain ⟨row, hrow, rfl⟩ := List.mem_map.mp hl'
          obtain ⟨c, hc, rfl⟩ := List.mem_map.mp hp
          exact scansTo_cell (rowGet row c) (hcellok row hrow c hc)
      simp only [List.nil_append, List.map_cons, List.map_map]
      congr 1
      · simp [Function.comp_def]
      · simp [Function.comp_def]
    -- a witnessing non-whitespace character inside the text
    obtain ⟨cnw, hcnw_mem, hcnw⟩ :
        ∃ c ∈ name.data, isJsWhitespace c = false := by
      by_contra hall
      push_neg at hall
      have hallws : ∀ c ∈ name.data, isJsWhitespace c = true := by
        intro c hc
        have := hall c hc
        revert this
        cases isJsWhitespace c <;> simp
      have : jsTrim name = "" := by
        unfold jsTrim
        rw [trimChars_nil_of_all _ hallws]
      rw [this] at hnws
      simp at hnws
    have hc_text : cnw ∈ (toCSV (DataFrame.make (r :: rs)) ⟨none, none⟩).data := by
      rw [toCSV_default_join _ hdne]
      apply mem_joinStrings "\n" _ (joinStrings "," (DataFrame.make (r :: rs)).columns)
        (List.mem_cons_self _ _)
      exact mem_joinStrings "," _ name hnmem cnw hcnw_mem
    have h_ne : ((toCSV (DataFrame.make (r :: rs)) ⟨none, none⟩) == "") = false := by
      refine beq_eq_false_iff_ne.mpr ?_
      intro he
      rw [he] at hc_text
      simp at hc_text
    have h_nw : (jsTrim (toCSV (DataFrame.make (r :: rs)) ⟨none, none⟩) == "") = false :=
      jsTrim_text_ne_empty _ cnw hc_text hcnw
    -- every parsed row survives the empty-line filter
    have h_filter : ∀ row ∈ (DataFrame.make (r :: rs)).columns ::
        (r :: rs).map (fun row =>
          (DataFrame.make (r :: rs)).columns.map (fun c => rawField (rowGet row c))),
        row.any (fun cell => !(jsTrim cell == "")) = true := by
      intro row hrow
      rcases List.mem_cons.mp hrow with rfl | hrow'
      · apply List.any_eq_true.mpr
        exact ⟨name, hnmem, by rw [hnws]; rfl⟩
      · obtain ⟨row0, hrow0, rfl⟩ := List.mem_map.mp hrow'
        apply List.any_eq_true.mpr
        obtain ⟨p, hp, hpnn⟩ := hrows row0 hrow0
        have hpc : p.1 ∈ (DataFrame.make (r :: rs)).columns := by
          rw [← hwf row0 hrow0]
          exact List.mem_map_of_mem Prod.fst hp
        refine ⟨rawField (rowGet row0 p.1), List.mem_map_of_mem _ hpc, ?_⟩
        rw [rowGet_of_keys row0 ((hwf row0 hrow0) ▸ hnodup) p hp]
        rw [trim_rawField_ne_empty p.2 (hcells row0 hrow0 p hp) hpnn]
        rfl
    -- each raw row rebuilds the original row object
    have h_rebuild : ∀ row ∈ r :: rs,
        buildRow (DataFrame.make (r :: rs)).columns
          ((DataFrame.make (r :: rs)).columns.map (fun c => rawField (rowGet row c))) =
        row := by
      intro row hrow
      rw [buildRow_eq_zip _ _ hnodup]
      have hlen : ((DataFrame.make (r :: rs)).columns.map
          (fun c => rawField (rowGet row c))).length =
          (DataFrame.make (r :: rs)).columns.length := by simp
      rw [hlen, Nat.sub_self, List.replicate_zero, List.append_nil, List.map_map]
      have hinf : (DataFrame.make (r :: rs)).columns.map
          (inferValue ∘ fun c => rawField (rowGet row c)) =
          (DataFrame.make (r :: rs)).columns.map (fun c => rowGet row c) := by
        apply List.map_congr_left
        intro c hc
        exact inferValue_rawField (rowGet row c) (hcellok row hrow c hc)
      rw [hinf, ← hwf row hrow, map_rowGet row ((hwf row hrow) ▸ hnodup),
        zip_fst_snd]
    rw [fromCSV_default_of_parse _ _ _ h_ne h_nw h_parse h_filter hcolne (by simp)]
    congr 1
    rw [List.map_map]
    have : ((r :: rs).map (buildRow (DataFrame.make (r :: rs)).columns ∘ fun row =>
        (DataFrame.make (r :: rs)).columns.map (fun c => rawField (rowGet row c)))) =
        (r :: rs).map (fun row => row) := by
      apply List.map_congr_left
      intro row hrow
      exact h_rebuild row hrow
    rw [this, List.map_id']

/-! ## Claim C1: the CSV round trip -/

/-- C1 counterexample.  The claim states the round trip preserves cell values
and types for any table of absent/number/string cells with control-free column
names.  The code refutes it: the string cell `"null"` is written as the bare
field `null`, which the reader's inference converts to absent, so the
round-tripped table differs from the original in that cell's type and value. -/
theorem claim_C1_counterexample :
    fromCSV (toCSV (DataFrame.make [[("a", Value.str "null")]]) ⟨none, none⟩)
        ⟨none, none, none⟩ =
      DataFrame.make [[("a", Value.null)]] ∧
    fromCSV (toCSV (DataFrame.make [[("a", Value.str "null")]]) ⟨none, none⟩)
        ⟨none, none, none⟩ ≠
      DataFrame.make [[("a", Value.str "null")]] := by
  refine ⟨by decide, by decide⟩

/-- C1 amended.  The round trip `fromCSV (toCSV T)` with default options on
both sides reproduces `T` exactly (same column names, same row count, same
cells) provided additionally that: column names contain no comma and no double
quote (on top of the claim's control-character exclusion) and not every column
name is whitespace-only; no string cell is one that value inference would turn
into absent or into a number (trimmed empty, `null`, `NULL`, or a plain
numeral without disallowed leading zeros); every row has at least one
non-absent cell; and number cells are finite JavaScript numbers (modelled as
rationals with terminating decimal expansion, which covers every IEEE-754
double). -/
theorem claim_C1_roundtrip_amended (data : List Row)
    (hwf : ∀ row ∈ data, row.map Prod.fst = (DataFrame.make data).columns)
    (hnodup : (DataFrame.make data).columns.Nodup)
    (hnames : ∀ name ∈ (DataFrame.make data).columns,
      ∀ c ∈ name.data, c ≠ '"' ∧ c ≠ ',' ∧ c ≠ '\n' ∧ c ≠ '\r')
    (hsomename : data ≠ [] →
      ∃ name ∈ (DataFrame.make data).columns, (jsTrim name == "") = false)
    (hcells : ∀ row ∈ data, ∀ p ∈ row, cellOK p.2)
    (hrows : ∀ row ∈ data, ∃ p ∈ row, p.2 ≠ Value.null) :
    fromCSV (toCSV (DataFrame.make data) ⟨none, none⟩) ⟨none, none, none⟩ =
      DataFrame.make data :=
  roundtrip_core data hwf hnodup hnames hsomename hcells hrows

/-- C1 witness: the amended round trip applied to a concrete two-column table
with a string cell and an absent cell. -/
theorem claim_C1_roundtrip_witness :
    fromCSV (toCSV (DataFrame.make [[("name", Value.str "Alice"), ("note", Value.null)]])
        ⟨none, none⟩) ⟨none, none, none⟩ =
      DataFrame.make [[("name", Value.str "Alice"), ("note", Value.null)]] :=
  claim_C1_roundtrip_amended [[("name", Value.str "Alice"), ("note", Value.null)]]
    (by decide) (by decide) (by decide) (by decide) (by decide) (by decide)

end TsFrame
